import Mathlib

set_option maxRecDepth 20000

/-!
Shallow embedding of the RTTR `type_database` registry
(src/Engine/Source/Core/reflection/rttr/detail/type/type_database.cpp)
of the EtherealEngine repository, together with proofs about the
registration and query operations.

Modelling conventions:
* machine integers (`type::type_id`, `uint16_t`, `std::size_t`) are `Nat`
  (registration counts stay far below any overflow boundary relevant here,
  and no arithmetic in the translated code wraps);
* C++ vectors are Lean `List`s; `std::unordered_map`/`std::map` are
  association lists queried with `find?` (the C++ code only observes these
  containers through `find`/`operator[]`, never through iteration order,
  except where noted);
* opaque runtime artefacts (function pointers such as `rttr_cast_func`,
  `variant_create_func`, wrapper objects, comparator and destructor
  objects) are modelled by `Nat` tags: the database only stores and
  returns them, it never calls them;
* `std::string` hashing (`generate_hash`, declared outside the extracted
  sources) is a parameter `hash : String → Nat` of every operation that
  hashes; all theorems hold for every choice of `hash`;
* `std::stable_sort` is modelled by an insertion sort (`stableSortK`),
  which is extensionally the unique stable sort; `std::sort` (unstable)
  is modelled by the same function, a determinisation that only fixes the
  order of elements with equal keys, which the code never observes
  through anything but key-directed searches.
-/

namespace rttr

/-- The dense type identifier; 0 is the reserved invalid id
(`type::m_invalid_id`). -/
abbrev TypeId := Nat

/-- The configured maximum inheritance fan-out
(`RTTR_MAX_INHERIT_TYPES_COUNT`). Modelled from the spec: the constant is
defined in a header outside the extracted sources, and the spec documents
it only as a fixed configuration constant surfaced to integrators. The
model instantiates it to 10; no claim depends on the value (every theorem
below about the rows is either generic in the constant or concerns
fan-outs far below any sensible bound). -/
def RTTR_MAX_INHERIT_TYPES_COUNT : Nat := 10

/-! ## Generic list helpers (vector resize, stable sort, map model) -/

/-- Model of `std::vector::resize(n, d)` as used by the database: every
call site passes `max(size(), n)`, so the vector only grows; growing
appends default elements. -/
def resizeTo (l : List α) (n : Nat) (d : α) : List α :=
  if n ≤ l.length then l else l ++ List.replicate (n - l.length) d

/-- Insert `a` into `l` before the first element whose key is not
smaller: equal keys already present stay in front of `a`. -/
def orderedInsertK (key : α → Nat) (a : α) : List α → List α
  | [] => [a]
  | b :: bs => if key a ≤ key b then a :: b :: bs else b :: orderedInsertK key a bs

/-- Stable sort by a `Nat` key (insertion sort). Used to model both
`std::stable_sort` (exact, since stable sorts are extensionally unique)
and `std::sort` (a determinisation, see the header comment). -/
def stableSortK (key : α → Nat) : List α → List α
  | [] => []
  | a :: as => orderedInsertK key a (stableSortK key as)

/-- Lookup in an association list, the model of
`std::unordered_map::find` / `std::map::find`. -/
def mapFind? (m : List (Nat × α)) (k : Nat) : Option α :=
  (m.find? (fun e => e.1 == k)).map (·.2)

/-- Lookup with a default, the model of reading a map entry that may be
absent (absent entries of `std::unordered_map<type, vector<T>>` behave
as empty vectors at every use site). -/
def mapFindD (m : List (Nat × α)) (k : Nat) (d : α) : α :=
  match m.find? (fun e => e.1 == k) with
  | some e => e.2
  | none => d

/-- Store a value under a key: overwrite the existing entry or append a
new one (the model of `map[k] = v` / `operator[]` followed by
mutation). -/
def mapSet (m : List (Nat × α)) (k : Nat) (v : α) : List (Nat × α) :=
  if m.any (fun e => e.1 == k) then
    m.map (fun e => if e.1 == k then (k, v) else e)
  else
    m ++ [(k, v)]

/-! ## String helpers for custom-name derivation

The name-derivation code (lines 792-912 of `type_database.cpp`) works on
`std::string`; we model strings by their character lists for positional
operations. `std::isspace` (default locale) accepts the six standard
whitespace characters. -/

/-- The character class accepted by `std::isspace` in the default
locale. -/
def isSpaceChar (c : Char) : Bool :=
  c == ' ' || c == '\t' || c == '\n' || c == '\x0b' || c == '\x0c' || c == '\r'

/-- `remove_whitespaces` (line 792): erase every whitespace character. -/
def removeWhitespaces (s : String) : String :=
  String.mk (s.toList.filter (fun c => !(isSpaceChar c)))

/-- First index at which `pat` occurs in `text` as a contiguous
substring, the model of `std::string::find`; an empty pattern matches at
index 0. -/
def findSubstr (text pat : List Char) : Option Nat :=
  if pat.isPrefixOf text then some 0
  else
    match text with
    | [] => none
    | _ :: rest => (findSubstr rest pat).map (· + 1)

/-- Last index of `text` holding a character that belongs to `set`, the
model of `std::string::find_last_of` (which searches for characters of
its argument, not for the substring). -/
def findLastOf (text set : List Char) : Option Nat :=
  (List.range text.length).foldl
    (fun acc i => if set.contains (text.getD i ' ') then some i else acc) none

/-- `is_space_after` (line 799): whether the character right after the
first occurrence of `part` in `text` is whitespace. Indexing one past
the end reads the terminating null in C++ (`isspace` false). -/
def is_space_after (text part : String) : Bool :=
  match findSubstr text.toList part.toList with
  | none => false
  | some pos =>
    let p := pos + part.toList.length
    if p > text.toList.length then false
    else isSpaceChar (text.toList.getD p (Char.ofNat 0))

/-- `is_space_before` (line 816): whether the character right before the
last `find_last_of` position of `part` in `text` is whitespace; position
0 underflows `size_t` in the source and yields false. -/
def is_space_before (text part : String) : Bool :=
  match findLastOf text.toList part.toList with
  | none => false
  | some 0 => false
  | some (pos + 1) => isSpaceChar (text.toList.getD pos (Char.ofNat 0))

/-- `insert_space_after` (line 833): insert one space after the first
occurrence of `part`. -/
def insert_space_after (text part : String) : String :=
  match findSubstr text.toList part.toList with
  | none => text
  | some pos =>
    let p := pos + part.toList.length
    if p > text.toList.length then text
    else String.mk (text.toList.take p ++ ' ' :: text.toList.drop p)

/-- `insert_space_before` (line 850): insert one space at the last
`find_last_of` position of `part`. -/
def insert_space_before (text part : String) : String :=
  match findLastOf text.toList part.toList with
  | none => text
  | some pos => String.mk (text.toList.take pos ++ ' ' :: text.toList.drop pos)

/-- `type_database::derive_name(src_name, raw_name, custom_name)`
(line 865): substitute the whitespace-stripped `raw_name` inside the
whitespace-stripped `src_name` by `custom_name`, restoring one space on
either side when one existed in the original text. -/
def derive_name (src_name raw_name custom_name : String) : String :=
  let tmp_raw := (removeWhitespaces raw_name).toList
  let tmp_src := (removeWhitespaces src_name).toList
  match findSubstr tmp_src tmp_raw with
  | none => src_name
  | some start_pos =>
    let end_pos := start_pos + tmp_raw.length
    let start_part := String.mk (tmp_src.take start_pos)
    let end_part := String.mk (tmp_src.drop end_pos)
    let replaced := String.mk (tmp_src.take start_pos ++ custom_name.toList ++ tmp_src.drop end_pos)
    let r1 := if is_space_after src_name start_part then insert_space_after replaced start_part else replaced
    if is_space_before src_name end_part then insert_space_before r1 end_part else r1

/-- Modelled from the spec: `type::normalize_orig_name` (declared outside
the extracted sources) produces the whitespace-normalized original
name. -/
def normalize_orig_name (s : String) : String := removeWhitespaces s

/-! ## Data model -/

/-- `name_to_id` entry of the two hashed name indexes; `order_by_name`
orders entries by `m_hash_value`. -/
structure NameToId where
  m_id : Nat
  m_hash_value : Nat
deriving DecidableEq

/-- `base_class_info`: a base type together with its `rttr_cast` function
pointer (an opaque tag here). -/
structure BaseClassInfo where
  m_base_type : TypeId
  m_rttr_cast_func : Nat
deriving DecidableEq

/-- A registered property wrapper: its name plus an opaque tag standing
for the wrapper object (`create_item<property>` merely wraps the
pointer, so the property handle is identified with its wrapper). -/
structure Property where
  m_name : String
  m_data : Nat
deriving DecidableEq

/-- A registered method wrapper: name, parameter-type list (the result of
`convert_param_list(get_parameter_infos())`), and an opaque tag. -/
structure Method where
  m_name : String
  m_params : List TypeId
  m_data : Nat
deriving DecidableEq

/-- A registered constructor wrapper: parameter-type list and opaque
tag. -/
structure Constructor where
  m_params : List TypeId
  m_data : Nat
deriving DecidableEq

/-- A registered converter: its target type (`m_target_type`) and an
opaque tag for the conversion object. -/
structure Converter where
  m_target_type : TypeId
  m_data : Nat
deriving DecidableEq

/-- The `type_database` singleton state: all parallel tables of
`type_database_p.h` that the extracted code reads or writes.
Destructors and comparators are opaque `Nat` tags; metadata keys and
values are `Nat` (standing for the ordered `variant` keys and stored
`variant` values). -/
structure TypeDatabase where
  m_type_id_counter : Nat
  m_orig_names : List String
  m_custom_names : List String
  m_orig_name_to_id : List NameToId
  m_custom_name_to_id : List NameToId
  m_base_class_list : List TypeId
  m_derived_class_list : List TypeId
  m_conversion_list : List Nat
  m_get_derived_info_func_list : List Nat
  m_raw_type_list : List TypeId
  m_wrapped_type_list : List TypeId
  m_array_raw_type_list : List TypeId
  m_variant_create_func_list : List Nat
  m_type_size : List Nat
  m_type_list : List TypeId
  m_is_class_list : List Bool
  m_is_enum_list : List Bool
  m_is_array_list : List Bool
  m_is_pointer_list : List Bool
  m_is_arithmetic_list : List Bool
  m_is_function_pointer_list : List Bool
  m_is_member_object_pointer_list : List Bool
  m_is_member_function_pointer_list : List Bool
  m_pointer_dim_list : List Nat
  m_global_properties : List (String × Property)
  m_type_property_map : List (Nat × List Property)
  m_class_property_map : List (Nat × List Property)
  m_global_methods : List (String × Method)
  m_type_method_map : List (Nat × List Method)
  m_class_method_map : List (Nat × List Method)
  m_type_ctor_map : List (Nat × List Constructor)
  m_type_dtor_map : List (Nat × Nat)
  m_metadata_type_list : List (Nat × List (Nat × Nat))
  m_type_converter_list : List (Nat × Converter)
  m_type_comparator_list : List (Nat × Nat)
deriving DecidableEq

/-- The freshly constructed database (`type_database::type_database`,
lines 55-114): every id-indexed table holds one dummy row for the
reserved invalid id 0. -/
def initial_db : TypeDatabase where
  m_type_id_counter := 0
  m_orig_names := ["!invalid_type!"]
  m_custom_names := ["!invalid_type!"]
  m_orig_name_to_id := []
  m_custom_name_to_id := []
  m_base_class_list := [0]
  m_derived_class_list := [0]
  m_conversion_list := [0]
  m_get_derived_info_func_list := [0]
  m_raw_type_list := [0]
  m_wrapped_type_list := [0]
  m_array_raw_type_list := [0]
  m_variant_create_func_list := [0]
  m_type_size := [0]
  m_type_list := [0]
  m_is_class_list := [false]
  m_is_enum_list := [false]
  m_is_array_list := [false]
  m_is_pointer_list := [false]
  m_is_arithmetic_list := [false]
  m_is_function_pointer_list := [false]
  m_is_member_object_pointer_list := [false]
  m_is_member_function_pointer_list := [false]
  m_pointer_dim_list := [0]
  m_global_properties := []
  m_type_property_map := []
  m_class_property_map := []
  m_global_methods := []
  m_type_method_map := []
  m_class_method_map := []
  m_type_ctor_map := []
  m_type_dtor_map := []
  m_metadata_type_list := []
  m_type_converter_list := []
  m_type_comparator_list := []

/-! ## Type attribute queries

`type`'s accessors (`is_valid`, `is_class`, `get_raw_type`,
`get_base_classes`, `get_derived_classes`) are implemented outside the
extracted sources; they are modelled from the spec against the tables of
this database, which is where they read from. -/

/-- Modelled from the spec: `type::is_valid` — id 0 is the reserved
invalid sentinel, every allocated id is valid. -/
def is_valid (t : TypeId) : Bool := t != 0

/-- Modelled from the spec: `type::is_class` reads the per-id
classification flag table. -/
def is_class (db : TypeDatabase) (t : TypeId) : Bool :=
  db.m_is_class_list.getD t false

/-- Modelled from the spec: `type::get_raw_type` reads the per-id
raw-type table. -/
def rawOf (db : TypeDatabase) (t : TypeId) : TypeId :=
  db.m_raw_type_list.getD t 0

/-- Modelled from the spec: `type::get_base_classes` reads the
fixed-width row of the flattened base-class table belonging to the raw
type of `t` (the row `register_base_class_info` writes); the valid
entries form the row's prefix before the invalid-id sentinel. -/
def get_base_classes (db : TypeDatabase) (t : TypeId) : List TypeId :=
  (((db.m_base_class_list.drop (RTTR_MAX_INHERIT_TYPES_COUNT * rawOf db t)).take
      RTTR_MAX_INHERIT_TYPES_COUNT).takeWhile (fun x => x != 0))

/-- Modelled from the spec: `type::get_derived_classes`, symmetric to
`get_base_classes` on the derived-class table. -/
def get_derived_classes (db : TypeDatabase) (t : TypeId) : List TypeId :=
  (((db.m_derived_class_list.drop (RTTR_MAX_INHERIT_TYPES_COUNT * rawOf db t)).take
      RTTR_MAX_INHERIT_TYPES_COUNT).takeWhile (fun x => x != 0))

/-! ## Member registries: properties and methods -/

/-- `update_class_list` (lines 158-189): rebuild the flattened class
list of `t` from the declared lists of its base classes followed by its
own declared list, then recurse into every derived class. The C++
recursion terminates because the registered inheritance graph is
acyclic; the model makes this explicit with a fuel argument (callers
pass more fuel than the graph's depth can reach). -/
def update_class_list (db : TypeDatabase) :
    Nat → TypeId → List (Nat × List α) → List (Nat × List α) → List (Nat × List α)
  | 0, _, _, cmap => cmap
  | fuel + 1, t, tmap, cmap =>
    let fromBases := (get_base_classes db t).flatMap (fun b => mapFindD tmap b [])
    let own := mapFindD tmap t []
    let cmap1 := mapSet cmap t (fromBases ++ own)
    (get_derived_classes db t).foldl (fun cm d => update_class_list db fuel d tmap cm) cmap1

/-- `get_class_item` specialised lookup: first entry with the given name
in the per-type list (`none` models the invalid sentinel item). -/
def get_class_item_prop (m : List (Nat × List Property)) (t : TypeId) (name : String) :
    Option Property :=
  (mapFindD m t []).find? (fun p => p.m_name == name)

/-- `type_database::get_type_property` (line 251). -/
def get_type_property (db : TypeDatabase) (t : TypeId) (name : String) : Option Property :=
  get_class_item_prop db.m_type_property_map t name

/-- `type_database::get_class_property` (line 244). -/
def get_class_property (db : TypeDatabase) (t : TypeId) (name : String) : Option Property :=
  get_class_item_prop db.m_class_property_map t name

/-- `type_database::get_class_properties` (line 258) as the list of
members it ranges over (absent entry and empty entry both give the empty
range). -/
def get_class_properties (db : TypeDatabase) (t : TypeId) : List Property :=
  mapFindD db.m_class_property_map t []

/-- `type_database::get_global_property` (line 273): first entry of the
global hashed-by-name container with the given name. Modelled from the
spec: the container keeps same-name entries adjacent in insertion
order. -/
def get_global_property (db : TypeDatabase) (name : String) : Option Property :=
  (db.m_global_properties.find? (fun e => e.1 == name)).map (·.2)

/-- `type_database::register_property` (lines 215-240): invalid type is
a no-op; for class types a same-name property on the same type is
rejected, otherwise the wrapper is appended to the declared list and the
flattened class lists are recomputed transitively; for non-class types a
same-name global property is rejected, otherwise the wrapper is inserted
into the global by-name container. -/
def register_property (db : TypeDatabase) (t : TypeId) (p : Property) : TypeDatabase :=
  if !(is_valid t) then db
  else if is_class db t then
    if (get_type_property db t p.m_name).isSome then db
    else
      let tmap := mapSet db.m_type_property_map t (mapFindD db.m_type_property_map t [] ++ [p])
      let db1 := { db with m_type_property_map := tmap }
      { db1 with
        m_class_property_map :=
          update_class_list db1 (db1.m_type_id_counter + 1) t tmap db1.m_class_property_map }
  else
    if (get_global_property db p.m_name).isSome then db
    else { db with m_global_properties := db.m_global_properties ++ [(p.m_name, p)] }

/-- Modelled from the spec: `compare_with_type_list::compare` (header
outside the extracted sources) is the exact pairwise signature match
with no implicit conversions. -/
def compare_with_type_list (params type_list : List TypeId) : Bool :=
  params == type_list

/-- `type_database::get_type_method` with a signature (line 349). -/
def get_type_method (db : TypeDatabase) (t : TypeId) (name : String)
    (type_list : List TypeId) : Option Method :=
  (mapFindD db.m_type_method_map t []).find?
    (fun m => m.m_name == name && compare_with_type_list m.m_params type_list)

/-- `type_database::get_class_method` with a signature (line 370). -/
def get_class_method (db : TypeDatabase) (t : TypeId) (name : String)
    (type_list : List TypeId) : Option Method :=
  (mapFindD db.m_class_method_map t []).find?
    (fun m => m.m_name == name && compare_with_type_list m.m_params type_list)

/-- `type_database::get_global_method` with a signature (lines 438-454):
walk the run of same-name entries in insertion order and return the
first whose signature matches. -/
def get_global_method (db : TypeDatabase) (name : String)
    (type_list : List TypeId) : Option Method :=
  ((db.m_global_methods.filter (fun e => e.1 == name)).map (·.2)).find?
    (fun m => compare_with_type_list m.m_params type_list)

/-- `type_database::register_method` (lines 307-331), mirroring
`register_property` with the signature-aware duplicate check. -/
def register_method (db : TypeDatabase) (t : TypeId) (m : Method) : TypeDatabase :=
  if !(is_valid t) then db
  else if is_class db t then
    if (get_type_method db t m.m_name m.m_params).isSome then db
    else
      let tmap := mapSet db.m_type_method_map t (mapFindD db.m_type_method_map t [] ++ [m])
      let db1 := { db with m_type_method_map := tmap }
      { db1 with
        m_class_method_map :=
          update_class_list db1 (db1.m_type_id_counter + 1) t tmap db1.m_class_method_map }
  else
    if (get_global_method db m.m_name m.m_params).isSome then db
    else { db with m_global_methods := db.m_global_methods ++ [(m.m_name, m)] }

/-! ## Constructors and destructors -/

/-- `type_database::register_constructor` (lines 523-533): invalid type
is a no-op; the duplicate-signature rejection is commented out in the
source ("TO DO"), so every wrapper is appended. -/
def register_constructor (db : TypeDatabase) (t : TypeId) (c : Constructor) : TypeDatabase :=
  if !(is_valid t) then db
  else { db with m_type_ctor_map := mapSet db.m_type_ctor_map t (mapFindD db.m_type_ctor_map t [] ++ [c]) }

/-- `type_database::get_constructor` by argument-type list (line 552). -/
def get_constructor (db : TypeDatabase) (t : TypeId) (arg_type_list : List TypeId) :
    Option Constructor :=
  (mapFindD db.m_type_ctor_map t []).find?
    (fun c => compare_with_type_list c.m_params arg_type_list)

/-- `type_database::register_destructor` (lines 603-609): note the
source has no `is_valid` guard here; `std::map::insert` stores the
destructor only when no entry exists for the key yet (first registration
wins). -/
def register_destructor (db : TypeDatabase) (t : TypeId) (d : Nat) : TypeDatabase :=
  match mapFind? db.m_type_dtor_map t with
  | some _ => db
  | none => { db with m_type_dtor_map := db.m_type_dtor_map ++ [(t, d)] }

/-- `type_database::get_destructor` (line 613). -/
def get_destructor (db : TypeDatabase) (t : TypeId) : Option Nat :=
  mapFind? db.m_type_dtor_map t

/-! ## Sorted-by-id side tables (metadata, converters, comparators) -/

/-- `get_item_by_type` (lines 489-505): `std::lower_bound` on the
id-sorted table, returning the first element's payload when its id
matches and nothing otherwise (the loop breaks after the first
element). On the sorted lists the database maintains, `lower_bound`
coincides with dropping the strictly-smaller prefix. -/
def getById (l : List (Nat × α)) (id : Nat) : Option α :=
  match l.dropWhile (fun e => decide (e.1 < id)) with
  | [] => none
  | e :: _ => if e.1 == id then some e.2 else none

/-- `type_database::get_metadata_list` (line 717). -/
def get_metadata_list (db : TypeDatabase) (t : TypeId) : Option (List (Nat × Nat)) :=
  getById db.m_metadata_type_list t

/-- `type_database::get_metadata(key, data)` (lines 702-713):
`std::lower_bound` by key, answer only when the found entry's key
matches. -/
def get_metadata_in (key : Nat) (data : List (Nat × Nat)) : Option Nat :=
  match data.dropWhile (fun e => decide (e.1 < key)) with
  | [] => none
  | e :: _ => if e.1 == key then some e.2 else none

/-- `type_database::get_metadata(t, key)` (line 694). -/
def get_metadata (db : TypeDatabase) (t : TypeId) (key : Nat) : Option Nat :=
  match get_metadata_list db t with
  | none => none
  | some data => get_metadata_in key data

/-- `type_database::register_metadata` (lines 666-690). When `t` has no
metadata vector yet, a new vector holding exactly `data` is created and
registered (`register_item_type`: append then stable sort by id).
CAUTION, faithful to the source: the subsequent duplicate-key check,
`emplace_back` of new entries and final `std::sort` all act on
`meta_vec_ref`, which line 680 (`auto meta_vec_ref = *meta_vec;`) binds
BY VALUE — a copy of the stored vector that is discarded when the
function returns. The stored vector therefore never changes after its
creation (and is never sorted). -/
def register_metadata (db : TypeDatabase) (t : TypeId) (data : List (Nat × Nat)) :
    TypeDatabase :=
  if !(is_valid t) || data.isEmpty then db
  else
    match get_metadata_list db t with
    | none =>
      { db with m_metadata_type_list :=
          stableSortK (fun e => e.1) (db.m_metadata_type_list ++ [(t, data)]) }
    | some _ => db

/-- `type_database::get_converter` (lines 741-759): `lower_bound` by
source id, then scan the equal-id run for the matching target. -/
def get_converter (db : TypeDatabase) (src target : TypeId) : Option Converter :=
  (((db.m_type_converter_list.dropWhile (fun e => decide (e.1 < src))).takeWhile
      (fun e => e.1 == src)).map (·.2)).find? (fun c => c.m_target_type == target)

/-- `type_database::register_converter` (lines 726-737): invalid type or
duplicate (source, target) pair is a no-op, otherwise append and stable
sort by source id. -/
def register_converter (db : TypeDatabase) (t : TypeId) (c : Converter) : TypeDatabase :=
  if !(is_valid t) then db
  else if (get_converter db t c.m_target_type).isSome then db
  else { db with m_type_converter_list :=
          stableSortK (fun e => e.1) (db.m_type_converter_list ++ [(t, c)]) }

/-- `type_database::register_comparator` (lines 763-772): append and
stable sort by id. -/
def register_comparator (db : TypeDatabase) (t : TypeId) (c : Nat) : TypeDatabase :=
  if !(is_valid t) then db
  else { db with m_type_comparator_list :=
          stableSortK (fun e => e.1) (db.m_type_comparator_list ++ [(t, c)]) }

/-- `type_database::get_comparator` (lines 776-786): `lower_bound` by
id, answer only when the element found carries the id. -/
def get_comparator (db : TypeDatabase) (t : TypeId) : Option Nat :=
  getById db.m_type_comparator_list t

/-! ## Name registration and the identifier allocator -/

/-- `type_database::derive_name(array_raw_type, name)` (lines 901-912):
when the array-raw type is invalid the (normalized) name is kept,
otherwise the raw type's custom name is substituted into it. -/
def derive_name_of_type (db : TypeDatabase) (arrayRawId : TypeId) (name : String) : String :=
  if !(is_valid arrayRawId) then normalize_orig_name name
  else
    let custom_name := db.m_custom_names.getD arrayRawId ""
    let raw_name_orig := normalize_orig_name (db.m_orig_names.getD arrayRawId "")
    derive_name (normalize_orig_name name) raw_name_orig custom_name

/-- The duplicate-name lookup of `register_name` (lines 920-934):
`std::lower_bound` on the hash-sorted original-name index, then walk the
equal-hash run comparing the stored name strings (`std::strcmp`), and
return the matching entry's id. -/
def lookup_orig_name (hash : String → Nat) (db : TypeDatabase) (name : String) : Option Nat :=
  let h := hash name
  (((db.m_orig_name_to_id.dropWhile (fun e => decide (e.m_hash_value < h))).takeWhile
      (fun e => e.m_hash_value == h)).find?
      (fun e => db.m_orig_names.getD e.m_id "" == name)).map (·.m_id)

/-- `type_database::register_name` (lines 916-950): return the already
stored id when the name is registered; otherwise allocate
`++m_type_id_counter`, insert into both hash indexes (append, then
sort), record the original and derived custom names, and extend
`m_type_list`. The returned `Bool` is the function's return value
("already existed"). -/
def register_name (hash : String → Nat) (db : TypeDatabase) (name : String)
    (arrayRawId : TypeId) : Bool × Nat × TypeDatabase :=
  match lookup_orig_name hash db name with
  | some i => (true, i, db)
  | none =>
    let newId := db.m_type_id_counter + 1
    let custom_name := derive_name_of_type db arrayRawId name
    (false, newId,
      { db with
        m_type_id_counter := newId
        m_orig_name_to_id :=
          stableSortK (fun e => e.m_hash_value) (db.m_orig_name_to_id ++ [⟨newId, hash name⟩])
        m_orig_names := db.m_orig_names ++ [name]
        m_custom_name_to_id :=
          stableSortK (fun e => e.m_hash_value)
            (db.m_custom_name_to_id ++ [⟨newId, hash custom_name⟩])
        m_custom_names := db.m_custom_names ++ [custom_name]
        m_type_list := db.m_type_list ++ [newId] })

/-- The duplicate-base removal at the head of `register_base_class_info`
(lines 956-969): scan the list from the tail with a seen-set and erase
every earlier duplicate, so for each base type the LAST occurrence of
the input list survives. -/
def dedup_from_tail (bs : List BaseClassInfo) : List BaseClassInfo :=
  (bs.reverse.foldl
    (fun (acc : List BaseClassInfo × List TypeId) e =>
      if acc.2.contains e.m_base_type then acc else (e :: acc.1, e.m_base_type :: acc.2))
    ([], [])).1

/-- Recursive reformulation of the duplicate-base scan used in proofs:
walk a list front-to-back keeping each entry whose base was not seen
before. `dedup_from_tail` equals this walk applied to the reversed
input, reversed back (proved below), which makes "the last occurrence
survives" precise. -/
def dedupKeepFirst (seen : List TypeId) : List BaseClassInfo → List BaseClassInfo
  | [] => []
  | e :: es =>
    if seen.contains e.m_base_type then dedupKeepFirst seen es
    else e :: dedupKeepFirst (e.m_base_type :: seen) es

/-- The write loop of `register_base_class_info` (lines 978-985):
store the base ids and cast functions of `es` into the two row tables
starting at `pos`. -/
def write_base_rows : List TypeId × List Nat → Nat → List BaseClassInfo → List TypeId × List Nat
  | (bl, cl), _, [] => (bl, cl)
  | (bl, cl), pos, e :: es =>
    write_base_rows (bl.set pos e.m_base_type, cl.set pos e.m_rttr_cast_func) (pos + 1) es

/-- The derived-list insertion of `register_base_class_info`
(lines 990-1002): put `src` into the first invalid slot of the row. -/
def place_derived (l : List TypeId) (row : Nat) (src : TypeId) : List TypeId :=
  match (List.range RTTR_MAX_INHERIT_TYPES_COUNT).find? (fun i => l.getD (row + i) 0 == 0) with
  | some i => l.set (row + i) src
  | none => l

/-- `type_database::register_base_class_info` (lines 954-1003): drop
duplicate bases (keeping the tail-most occurrence), sort ascending by
base id (ids are distinct after the dedupe, so the unstable `std::sort`
is deterministic here), write the base-id and cast-function rows of the
raw type, and append the source type into each base's derived row. -/
def register_base_class_info (db : TypeDatabase) (srcId rawId : TypeId)
    (base_classes : List BaseClassInfo) : TypeDatabase :=
  let bs := stableSortK (fun e => e.m_base_type) (dedup_from_tail base_classes)
  let row := RTTR_MAX_INHERIT_TYPES_COUNT * rawId
  let bl0 := resizeTo db.m_base_class_list
      (max db.m_base_class_list.length (row + RTTR_MAX_INHERIT_TYPES_COUNT)) 0
  let cl0 := resizeTo db.m_conversion_list
      (max db.m_conversion_list.length (row + RTTR_MAX_INHERIT_TYPES_COUNT)) 0
  let written := write_base_rows (bl0, cl0) row bs
  let dl0 := resizeTo db.m_derived_class_list
      (max db.m_derived_class_list.length (row + RTTR_MAX_INHERIT_TYPES_COUNT)) 0
  let dl := bs.foldl
    (fun l e =>
      place_derived l (RTTR_MAX_INHERIT_TYPES_COUNT * (db.m_raw_type_list.getD e.m_base_type 0))
        srcId) dl0
  { db with m_base_class_list := written.1, m_conversion_list := written.2,
            m_derived_class_list := dl }

/-- The argument record of `type_database::register_type`
(lines 1009-1025); function pointers are opaque tags. -/
structure RegTypeArgs where
  name : String
  rawId : TypeId
  wrappedId : TypeId
  arrayRawId : TypeId
  baseClasses : List BaseClassInfo
  derivedPtr : Nat
  variantPtr : Nat
  typeSize : Nat
  isClass : Bool
  isEnum : Bool
  isArray : Bool
  isPointer : Bool
  isArithmetic : Bool
  isFnPtr : Bool
  isMemObjPtr : Bool
  isMemFnPtr : Bool
  pointerDim : Nat
deriving DecidableEq

/-- `type_database::register_type` (lines 1009-1063): delegate to
`register_name`; when the name already existed return the stored id with
no further mutation; otherwise append one row to every attribute table
in lock-step and finally record the inheritance information. -/
def register_type (hash : String → Nat) (db : TypeDatabase) (a : RegTypeArgs) :
    Nat × TypeDatabase :=
  match register_name hash db a.name a.arrayRawId with
  | (true, id, db1) => (id, db1)
  | (false, id, db1) =>
    let raw_id := if a.rawId = 0 then id else a.rawId
    let db2 := { db1 with
      m_raw_type_list := db1.m_raw_type_list ++ [raw_id]
      m_wrapped_type_list := db1.m_wrapped_type_list ++ [a.wrappedId]
      m_array_raw_type_list :=
        db1.m_array_raw_type_list ++ [if a.arrayRawId = 0 then id else a.arrayRawId]
      m_get_derived_info_func_list :=
        (resizeTo db1.m_get_derived_info_func_list
          (max db1.m_get_derived_info_func_list.length (raw_id + 1)) 0).set raw_id a.derivedPtr
      m_variant_create_func_list := db1.m_variant_create_func_list ++ [a.variantPtr]
      m_type_size := db1.m_type_size ++ [a.typeSize]
      m_is_class_list := db1.m_is_class_list ++ [a.isClass]
      m_is_enum_list := db1.m_is_enum_list ++ [a.isEnum]
      m_is_array_list := db1.m_is_array_list ++ [a.isArray]
      m_is_pointer_list := db1.m_is_pointer_list ++ [a.isPointer]
      m_is_arithmetic_list := db1.m_is_arithmetic_list ++ [a.isArithmetic]
      m_is_function_pointer_list := db1.m_is_function_pointer_list ++ [a.isFnPtr]
      m_is_member_object_pointer_list := db1.m_is_member_object_pointer_list ++ [a.isMemObjPtr]
      m_is_member_function_pointer_list :=
        db1.m_is_member_function_pointer_list ++ [a.isMemFnPtr]
      m_pointer_dim_list := db1.m_pointer_dim_list ++ [a.pointerDim] }
    (id, register_base_class_info db2 id raw_id a.baseClasses)

/-- `type_database::register_custom_name` (lines 642-662): overwrite the
custom name, re-derive the custom name of every type whose array-raw
type is `t` (walking the custom-name index and refreshing each entry's
hash), and re-sort the custom-name index. -/
def register_custom_name (hash : String → Nat) (db : TypeDatabase) (t : TypeId)
    (custom_name : String) : TypeDatabase :=
  if !(is_valid t) then db
  else
    let names1 := db.m_custom_names.set t custom_name
    let custom_ref := names1.getD t ""
    let raw_name := normalize_orig_name (db.m_orig_names.getD t "")
    let walked := db.m_custom_name_to_id.foldl
      (fun (acc : List NameToId × List String) e =>
        if db.m_array_raw_type_list.getD e.m_id 0 == t then
          let nm := derive_name (acc.2.getD e.m_id "") raw_name custom_ref
          (acc.1 ++ [{ e with m_hash_value := hash nm }], acc.2.set e.m_id nm)
        else (acc.1 ++ [e], acc.2))
      ([], names1)
    { db with m_custom_names := walked.2,
              m_custom_name_to_id := stableSortK (fun e => e.m_hash_value) walked.1 }

/-- `type_database::get_by_name` (lines 1067-1086): hash lookup on the
custom-name index with exact string confirmation. -/
def get_by_name (hash : String → Nat) (db : TypeDatabase) (name : String) : TypeId :=
  let h := hash name
  match (((db.m_custom_name_to_id.dropWhile (fun e => decide (e.m_hash_value < h))).takeWhile
      (fun e => e.m_hash_value == h)).find?
      (fun e => db.m_custom_names.getD e.m_id "" == name)) with
  | some e => e.m_id
  | none => 0

/-! ## Scenario definitions used by the claims -/

/-- Register a list of properties on one type, one
`register_property` call after another. -/
def register_properties (db : TypeDatabase) (t : TypeId) (ps : List Property) : TypeDatabase :=
  ps.foldl (fun d p => register_property d t p) db

/-- Run a whole sequence of `register_type` calls against the freshly
constructed database. -/
def registerAll (hash : String → Nat) (regs : List RegTypeArgs) : TypeDatabase :=
  regs.foldl (fun d a => (register_type hash d a).2) initial_db

/-- The lengths of every attribute table indexed directly by TypeId, in
the order the claim lists them: original names, custom names, raw-type
ids, wrapped-type ids, array-raw-type ids, variant-create functions,
sizes, the eight classification-flag lists, and pointer-indirection
depths. -/
def lockstep_tables (db : TypeDatabase) : List Nat :=
  [db.m_orig_names.length, db.m_custom_names.length, db.m_raw_type_list.length,
   db.m_wrapped_type_list.length, db.m_array_raw_type_list.length,
   db.m_variant_create_func_list.length, db.m_type_size.length,
   db.m_is_class_list.length, db.m_is_enum_list.length, db.m_is_array_list.length,
   db.m_is_pointer_list.length, db.m_is_arithmetic_list.length,
   db.m_is_function_pointer_list.length, db.m_is_member_object_pointer_list.length,
   db.m_is_member_function_pointer_list.length, db.m_pointer_dim_list.length]

/-- Fold a name sequence into the list of first occurrences, in order:
the shape of the registry's allocated-name list. -/
def accNames (acc : List String) (ns : List String) : List String :=
  ns.foldl (fun s n => if n ∈ s then s else s ++ [n]) acc

/-- Registration arguments for a plain class type (its own raw type, no
wrapper, no array-raw type). -/
def classArgs (n : String) (bs : List BaseClassInfo) : RegTypeArgs :=
  { name := n, rawId := 0, wrappedId := 0, arrayRawId := 0, baseClasses := bs,
    derivedPtr := 0, variantPtr := 0, typeSize := 8, isClass := true, isEnum := false,
    isArray := false, isPointer := false, isArithmetic := false, isFnPtr := false,
    isMemObjPtr := false, isMemFnPtr := false, pointerDim := 0 }

/-- The claim C2/C3 inheritance scenario: class `nB1` (gets id 1), then
class `nB2` (gets id 2), then class `nT` (gets id 3) with base classes
`[B1, B2]` carrying cast-function tags `f1`, `f2`. -/
def twoBaseScenario (hash : String → Nat) (nB1 nB2 nT : String) (f1 f2 : Nat) :
    TypeDatabase :=
  (register_type hash
    ((register_type hash
      ((register_type hash initial_db (classArgs nB1 [])).2) (classArgs nB2 [])).2)
    (classArgs nT [⟨1, f1⟩, ⟨2, f2⟩])).2

/-- Invariant of the two-base scenario during property registration:
the fixed type skeleton (ids, flags, inheritance rows) plus the declared
property lists `l1`, `l2`, `l3` of the three types and the flattened
class list of the derived type. -/
structure TwoBaseInv (l1 l2 l3 : List Property) (db : TypeDatabase) : Prop where
  counter : db.m_type_id_counter = 3
  cls : db.m_is_class_list = [false, true, true, true]
  bases1 : get_base_classes db 1 = []
  bases2 : get_base_classes db 2 = []
  bases3 : get_base_classes db 3 = [1, 2]
  derived1 : get_derived_classes db 1 = [3]
  derived2 : get_derived_classes db 2 = [3]
  derived3 : get_derived_classes db 3 = []
  tmap1 : mapFindD db.m_type_property_map 1 [] = l1
  tmap2 : mapFindD db.m_type_property_map 2 [] = l2
  tmap3 : mapFindD db.m_type_property_map 3 [] = l3
  cmap3 : mapFindD db.m_class_property_map 3 [] = l1 ++ l2 ++ l3


/-- Explicit form of the database after registering class `nB1` against
the fresh registry (proved equal to the computation below). -/
def scenario_db1 (hash : String → Nat) (nB1 : String) : TypeDatabase where
  m_type_id_counter := 1
  m_orig_names := ["!invalid_type!", nB1]
  m_custom_names := ["!invalid_type!", removeWhitespaces nB1]
  m_orig_name_to_id := [⟨1, hash nB1⟩]
  m_custom_name_to_id := [⟨1, hash (removeWhitespaces nB1)⟩]
  m_base_class_list := List.replicate 20 0
  m_derived_class_list := List.replicate 20 0
  m_conversion_list := List.replicate 20 0
  m_get_derived_info_func_list := [0, 0]
  m_raw_type_list := [0, 1]
  m_wrapped_type_list := [0, 0]
  m_array_raw_type_list := [0, 1]
  m_variant_create_func_list := [0, 0]
  m_type_size := [0, 8]
  m_type_list := [0, 1]
  m_is_class_list := [false, true]
  m_is_enum_list := [false, false]
  m_is_array_list := [false, false]
  m_is_pointer_list := [false, false]
  m_is_arithmetic_list := [false, false]
  m_is_function_pointer_list := [false, false]
  m_is_member_object_pointer_list := [false, false]
  m_is_member_function_pointer_list := [false, false]
  m_pointer_dim_list := [0, 0]
  m_global_properties := []
  m_type_property_map := []
  m_class_property_map := []
  m_global_methods := []
  m_type_method_map := []
  m_class_method_map := []
  m_type_ctor_map := []
  m_type_dtor_map := []
  m_metadata_type_list := []
  m_type_converter_list := []
  m_type_comparator_list := []

/-- Explicit form of the database after additionally registering class
`nB2`. -/
def scenario_db2 (hash : String → Nat) (nB1 nB2 : String) : TypeDatabase where
  m_type_id_counter := 2
  m_orig_names := ["!invalid_type!", nB1, nB2]
  m_custom_names := ["!invalid_type!", removeWhitespaces nB1, removeWhitespaces nB2]
  m_orig_name_to_id := stableSortK (fun e => e.m_hash_value)
    [⟨1, hash nB1⟩, ⟨2, hash nB2⟩]
  m_custom_name_to_id := stableSortK (fun e => e.m_hash_value)
    [⟨1, hash (removeWhitespaces nB1)⟩, ⟨2, hash (removeWhitespaces nB2)⟩]
  m_base_class_list := List.replicate 30 0
  m_derived_class_list := List.replicate 30 0
  m_conversion_list := List.replicate 30 0
  m_get_derived_info_func_list := [0, 0, 0]
  m_raw_type_list := [0, 1, 2]
  m_wrapped_type_list := [0, 0, 0]
  m_array_raw_type_list := [0, 1, 2]
  m_variant_create_func_list := [0, 0, 0]
  m_type_size := [0, 8, 8]
  m_type_list := [0, 1, 2]
  m_is_class_list := [false, true, true]
  m_is_enum_list := [false, false, false]
  m_is_array_list := [false, false, false]
  m_is_pointer_list := [false, false, false]
  m_is_arithmetic_list := [false, false, false]
  m_is_function_pointer_list := [false, false, false]
  m_is_member_object_pointer_list := [false, false, false]
  m_is_member_function_pointer_list := [false, false, false]
  m_pointer_dim_list := [0, 0, 0]
  m_global_properties := []
  m_type_property_map := []
  m_class_property_map := []
  m_global_methods := []
  m_type_method_map := []
  m_class_method_map := []
  m_type_ctor_map := []
  m_type_dtor_map := []
  m_metadata_type_list := []
  m_type_converter_list := []
  m_type_comparator_list := []

/-- Explicit form of the database after additionally registering class
`nT` with base classes 1 and 2 (cast tags `f1`, `f2`): the base row of
raw type 3 holds [1, 2], and type 3 appears in the derived rows of both
bases. -/
def scenario_db3 (hash : String → Nat) (nB1 nB2 nT : String) (f1 f2 : Nat) :
    TypeDatabase where
  m_type_id_counter := 3
  m_orig_names := ["!invalid_type!", nB1, nB2, nT]
  m_custom_names := ["!invalid_type!", removeWhitespaces nB1, removeWhitespaces nB2,
    removeWhitespaces nT]
  m_orig_name_to_id := stableSortK (fun e => e.m_hash_value)
    (stableSortK (fun e => e.m_hash_value) [⟨1, hash nB1⟩, ⟨2, hash nB2⟩] ++
      [⟨3, hash nT⟩])
  m_custom_name_to_id := stableSortK (fun e => e.m_hash_value)
    (stableSortK (fun e => e.m_hash_value)
      [⟨1, hash (removeWhitespaces nB1)⟩, ⟨2, hash (removeWhitespaces nB2)⟩] ++
      [⟨3, hash (removeWhitespaces nT)⟩])
  m_base_class_list := List.replicate 30 0 ++ [1, 2] ++ List.replicate 8 0
  m_derived_class_list := List.replicate 10 0 ++ [3] ++ List.replicate 9 0 ++ [3] ++
    List.replicate 19 0
  m_conversion_list := List.replicate 30 0 ++ [f1, f2] ++ List.replicate 8 0
  m_get_derived_info_func_list := [0, 0, 0, 0]
  m_raw_type_list := [0, 1, 2, 3]
  m_wrapped_type_list := [0, 0, 0, 0]
  m_array_raw_type_list := [0, 1, 2, 3]
  m_variant_create_func_list := [0, 0, 0, 0]
  m_type_size := [0, 8, 8, 8]
  m_type_list := [0, 1, 2, 3]
  m_is_class_list := [false, true, true, true]
  m_is_enum_list := [false, false, false, false]
  m_is_array_list := [false, false, false, false]
  m_is_pointer_list := [false, false, false, false]
  m_is_arithmetic_list := [false, false, false, false]
  m_is_function_pointer_list := [false, false, false, false]
  m_is_member_object_pointer_list := [false, false, false, false]
  m_is_member_function_pointer_list := [false, false, false, false]
  m_pointer_dim_list := [0, 0, 0, 0]
  m_global_properties := []
  m_type_property_map := []
  m_class_property_map := []
  m_global_methods := []
  m_type_method_map := []
  m_class_method_map := []
  m_type_ctor_map := []
  m_type_dtor_map := []
  m_metadata_type_list := []
  m_type_converter_list := []
  m_type_comparator_list := []

/-- The reachable-state invariant of the identifier allocator and name
index, used for the lock-step table claim. -/
structure RegInv (hash : String → Nat) (db : TypeDatabase) : Prop where
  sorted : List.Pairwise (fun x y => x.m_hash_value ≤ y.m_hash_value) db.m_orig_name_to_id
  hashes : ∀ e ∈ db.m_orig_name_to_id,
    e.m_hash_value = hash (db.m_orig_names.getD e.m_id "")
  bounds : ∀ e ∈ db.m_orig_name_to_id, e.m_id < db.m_orig_names.length ∧ 1 ≤ e.m_id
  counter : db.m_orig_names.length = db.m_type_id_counter + 1
  complete : ∀ i, 1 ≤ i → i < db.m_orig_names.length →
    ∃ e ∈ db.m_orig_name_to_id, e.m_id = i
  lock : ∀ n ∈ lockstep_tables db, n = db.m_orig_names.length

/-! ## Generic lemmas about the list helpers -/

theorem mem_orderedInsertK {key : α → Nat} {a b : α} {l : List α} :
    b ∈ orderedInsertK key a l ↔ b = a ∨ b ∈ l := by
  induction l with
  | nil => simp [orderedInsertK]
  | cons x xs ih =>
    simp only [orderedInsertK]
    by_cases h : key a ≤ key x
    · simp only [if_pos h, List.mem_cons]
    · simp only [if_neg h, List.mem_cons, ih]
      tauto

theorem mem_stableSortK {key : α → Nat} {a : α} {l : List α} :
    a ∈ stableSortK key l ↔ a ∈ l := by
  induction l with
  | nil => simp [stableSortK]
  | cons x xs ih => simp [stableSortK, mem_orderedInsertK, ih]

theorem sorted_orderedInsertK {key : α → Nat} {a : α} {l : List α}
    (h : List.Pairwise (fun x y => key x ≤ key y) l) :
    List.Pairwise (fun x y => key x ≤ key y) (orderedInsertK key a l) := by
  induction l with
  | nil => simp [orderedInsertK]
  | cons x xs ih =>
    rcases List.pairwise_cons.mp h with ⟨hx, hxs⟩
    simp only [orderedInsertK]
    by_cases hle : key a ≤ key x
    · rw [if_pos hle]
      refine List.pairwise_cons.mpr ⟨?_, h⟩
      intro b hb
      rcases List.mem_cons.mp hb with rfl | hb
      · exact hle
      · exact le_trans hle (hx b hb)
    · rw [if_neg hle]
      refine List.pairwise_cons.mpr ⟨?_, ih hxs⟩
      intro b hb
      rcases mem_orderedInsertK.mp hb with rfl | hb
      · exact Nat.le_of_lt (Nat.lt_of_not_le hle)
      · exact hx b hb

theorem sorted_stableSortK {key : α → Nat} (l : List α) :
    List.Pairwise (fun x y => key x ≤ key y) (stableSortK key l) := by
  induction l with
  | nil => simp [stableSortK]
  | cons x xs ih => exact sorted_orderedInsertK ih

theorem takeWhile_eq_nil_of_all {p : α → Bool} {l : List α}
    (h : ∀ x ∈ l, p x = false) : l.takeWhile p = [] := by
  cases l with
  | nil => rfl
  | cons x xs => simp [List.takeWhile_cons, h x (by simp)]

theorem dropWhile_eq_self_of_all {p : α → Bool} {l : List α}
    (h : ∀ x ∈ l, p x = false) : l.dropWhile p = l := by
  cases l with
  | nil => rfl
  | cons x xs => simp [List.dropWhile_cons, h x (by simp)]

theorem dropWhile_append_of_all {p : α → Bool} {A B : List α}
    (h : ∀ x ∈ A, p x = true) : (A ++ B).dropWhile p = B.dropWhile p := by
  induction A with
  | nil => rfl
  | cons x xs ih =>
    rw [List.cons_append, List.dropWhile_cons, if_pos (h x (by simp))]
    exact ih (fun y hy => h y (by simp [hy]))

theorem find?_append_of_none {p : α → Bool} {A B : List α}
    (h : ∀ x ∈ A, p x = false) : (A ++ B).find? p = B.find? p := by
  rw [List.find?_append, List.find?_eq_none.mpr (fun x hx => by simp [h x hx])]
  rfl

theorem orderedInsertK_of_le {key : α → Nat} {a : α} {l : List α}
    (h : ∀ x ∈ l, key a ≤ key x) : orderedInsertK key a l = a :: l := by
  cases l with
  | nil => rfl
  | cons x xs => simp [orderedInsertK, h x (by simp)]

/-- Stable sort of an already sorted list with one element appended:
the new element lands right after the elements with key not larger than
its own (in particular, after its equal-key peers: stability). -/
theorem stableSortK_sorted_append_single {key : α → Nat} {l : List α} {a : α}
    (h : List.Pairwise (fun x y => key x ≤ key y) l) :
    stableSortK key (l ++ [a]) =
      l.takeWhile (fun b => decide (key b ≤ key a)) ++
        a :: l.dropWhile (fun b => decide (key b ≤ key a)) := by
  induction l with
  | nil => rfl
  | cons y l ih =>
    rcases List.pairwise_cons.mp h with ⟨hy, hl⟩
    have lhs : stableSortK key ((y :: l) ++ [a]) =
        orderedInsertK key y (stableSortK key (l ++ [a])) := rfl
    rw [lhs, ih hl]
    by_cases hya : key y ≤ key a
    · have hfront : orderedInsertK key y
          (l.takeWhile (fun b => decide (key b ≤ key a)) ++
            a :: l.dropWhile (fun b => decide (key b ≤ key a))) =
          y :: (l.takeWhile (fun b => decide (key b ≤ key a)) ++
            a :: l.dropWhile (fun b => decide (key b ≤ key a))) := by
        apply orderedInsertK_of_le
        intro x hx
        rcases List.mem_append.mp hx with hx | hx
        · exact hy x (List.Sublist.mem hx (List.takeWhile_sublist _))
        · rcases List.mem_cons.mp hx with rfl | hx
          · exact hya
          · exact hy x (List.Sublist.mem hx (List.dropWhile_sublist _))
      rw [hfront, List.takeWhile_cons, if_pos (by simpa using hya),
          List.dropWhile_cons, if_pos (by simpa using hya), List.cons_append]
    · have hlt : key a < key y := Nat.lt_of_not_le hya
      have hall : ∀ x ∈ l, (decide (key x ≤ key a)) = false := by
        intro x hx
        simp only [decide_eq_false_iff_not]
        intro hle
        exact absurd (Nat.lt_of_lt_of_le hlt (hy x hx)) (Nat.not_lt_of_le hle)
      rw [takeWhile_eq_nil_of_all hall, dropWhile_eq_self_of_all hall,
          List.nil_append]
      have step : orderedInsertK key y (a :: l) = a :: orderedInsertK key y l := by
        simp [orderedInsertK, hya]
      rw [step, orderedInsertK_of_le hy, List.takeWhile_cons,
          if_neg (by simpa using hya), List.dropWhile_cons,
          if_neg (by simpa using hya)]
      rfl

theorem takeWhile_eq_filter_of_lower {key : α → Nat} {l : List α} {h : Nat}
    (hs : List.Pairwise (fun x y => key x ≤ key y) l)
    (hlow : ∀ z ∈ l, h ≤ key z) :
    l.takeWhile (fun e => key e == h) = l.filter (fun e => key e == h) := by
  induction l with
  | nil => rfl
  | cons z l ih =>
    rcases List.pairwise_cons.mp hs with ⟨hz, hl⟩
    by_cases hzh : key z = h
    · rw [List.takeWhile_cons, if_pos (by simpa using hzh),
          List.filter_cons, if_pos (by simpa using hzh)]
      exact congrArg _ (ih hl (fun y hy => hzh ▸ hz y hy))
    · have hgt : h < key z := Nat.lt_of_le_of_ne (hlow z (by simp)) (Ne.symm hzh)
      rw [List.takeWhile_cons, if_neg (by simpa using hzh)]
      symm
      rw [List.filter_eq_nil_iff]
      intro y hy
      rcases List.mem_cons.mp hy with rfl | hy
      · simpa using hzh
      · have : key z ≤ key y := hz y hy
        simp only [beq_iff_eq]
        omega

/-- On a key-sorted list, `lower_bound` followed by the walk of the
equal-key run visits exactly the elements whose key matches. -/
theorem run_eq_filter {key : α → Nat} {l : List α} {h : Nat}
    (hs : List.Pairwise (fun x y => key x ≤ key y) l) :
    (l.dropWhile (fun e => decide (key e < h))).takeWhile (fun e => key e == h) =
      l.filter (fun e => key e == h) := by
  induction l with
  | nil => rfl
  | cons x xs ih =>
    rcases List.pairwise_cons.mp hs with ⟨hx, hxs⟩
    rcases Nat.lt_trichotomy (key x) h with hlt | heq | hgt
    · rw [List.dropWhile_cons, if_pos (by simpa using hlt), List.filter_cons,
          if_neg (by simp [Nat.ne_of_lt hlt]), ih hxs]
    · rw [List.dropWhile_cons, if_neg (by simp [heq]), List.takeWhile_cons,
          if_pos (by simpa using heq), List.filter_cons, if_pos (by simpa using heq)]
      exact congrArg _ (takeWhile_eq_filter_of_lower hxs (fun z hz => heq ▸ hx z hz))
    · rw [List.dropWhile_cons, if_neg (by simp [Nat.le_of_lt hgt, Nat.not_lt_of_le]),
          List.takeWhile_cons, if_neg (by simp; omega)]
      symm
      rw [List.filter_eq_nil_iff]
      intro y hy
      rcases List.mem_cons.mp hy with rfl | hy
      · simp; omega
      · have : key x ≤ key y := hx y hy
        simp only [beq_iff_eq]
        omega

theorem getById_none_not_mem {l : List (Nat × α)} {id : Nat}
    (hs : List.Pairwise (fun x y => x.1 ≤ y.1) l)
    (h : getById l id = none) : ∀ e ∈ l, e.1 ≠ id := by
  induction l with
  | nil => simp
  | cons x xs ih =>
    rcases List.pairwise_cons.mp hs with ⟨hx, hxs⟩
    by_cases hlt : x.1 < id
    · have heq : getById (x :: xs) id = getById xs id := by
        simp [getById, List.dropWhile_cons, hlt]
      intro e he
      rcases List.mem_cons.mp he with rfl | he
      · exact Nat.ne_of_lt hlt
      · exact ih hxs (heq ▸ h) e he
    · have hform : getById (x :: xs) id = if x.1 == id then some x.2 else none := by
        simp [getById, List.dropWhile_cons, hlt]
      rw [hform] at h
      by_cases heq2 : x.1 = id
      · simp [heq2] at h
      · have hgt : id < x.1 := by omega
        intro e he
        rcases List.mem_cons.mp he with rfl | he
        · exact heq2
        · have := hx e he
          omega

theorem getById_append_mid {A B : List (Nat × α)} {x : Nat × α} {id : Nat}
    (hA : ∀ e ∈ A, (decide (e.1 < id)) = true) (hx : x.1 = id) :
    getById (A ++ x :: B) id = some x.2 := by
  unfold getById
  rw [dropWhile_append_of_all hA, List.dropWhile_cons, if_neg (by simp [hx])]
  simp [hx]

theorem find?_map_overwrite_self (m : List (Nat × α)) (k : Nat) (v : α) :
    ((m.map (fun e => if e.1 == k then (k, v) else e)).find? (fun e => e.1 == k)) =
      if m.any (fun e => e.1 == k) then some (k, v) else none := by
  induction m with
  | nil => rfl
  | cons e m ih =>
    rw [List.map_cons]
    by_cases he : e.1 = k
    · rw [if_pos (by simpa using he), List.find?_cons_of_pos _ (by simp),
          if_pos (by simp [List.any_cons, he])]
    · have hcond : ((e :: m).any (fun x => x.1 == k)) = (m.any (fun x => x.1 == k)) := by
        simp [List.any_cons, he]
      rw [if_neg (by simpa using he), List.find?_cons_of_neg _ (by simpa using he), hcond]
      exact ih

theorem find?_map_overwrite_ne (m : List (Nat × α)) (k k' : Nat) (v : α)
    (h : k' ≠ k) :
    ((m.map (fun e => if e.1 == k then (k, v) else e)).find? (fun e => e.1 == k')) =
      m.find? (fun e => e.1 == k') := by
  induction m with
  | nil => rfl
  | cons e m ih =>
    rw [List.map_cons]
    by_cases he : e.1 = k
    · rw [if_pos (by simpa using he)]
      have e1 : List.find? (fun x => x.1 == k')
          ((k, v) :: m.map (fun x => if x.1 == k then (k, v) else x)) =
          List.find? (fun x => x.1 == k')
            (m.map (fun x => if x.1 == k then (k, v) else x)) :=
        List.find?_cons_of_neg _ (by simp only [beq_iff_eq]; omega)
      have e2 : List.find? (fun x => x.1 == k') (e :: m) =
          List.find? (fun x => x.1 == k') m :=
        List.find?_cons_of_neg _ (by simp only [beq_iff_eq, he]; omega)
      rw [e1, e2]
      exact ih
    · rw [if_neg (by simpa using he)]
      by_cases hek : (e.1 == k') = true
      · have e1 : List.find? (fun x => x.1 == k')
            (e :: m.map (fun x => if x.1 == k then (k, v) else x)) = some e :=
          List.find?_cons_of_pos _ hek
        have e2 : List.find? (fun x => x.1 == k') (e :: m) = some e :=
          List.find?_cons_of_pos _ hek
        rw [e1, e2]
      · have e1 : List.find? (fun x => x.1 == k')
            (e :: m.map (fun x => if x.1 == k then (k, v) else x)) =
            List.find? (fun x => x.1 == k')
              (m.map (fun x => if x.1 == k then (k, v) else x)) :=
          List.find?_cons_of_neg _ hek
        have e2 : List.find? (fun x => x.1 == k') (e :: m) =
            List.find? (fun x => x.1 == k') m :=
          List.find?_cons_of_neg _ hek
        rw [e1, e2]
        exact ih

theorem mapFindD_mapSet_self (m : List (Nat × α)) (k : Nat) (v d : α) :
    mapFindD (mapSet m k v) k d = v := by
  unfold mapSet
  by_cases hany : m.any (fun e => e.1 == k)
  · rw [if_pos hany]
    unfold mapFindD
    rw [find?_map_overwrite_self, if_pos hany]
  · rw [if_neg hany]
    unfold mapFindD
    have hf : m.any (fun e => e.1 == k) = false := Bool.eq_false_iff.mpr hany
    rw [find?_append_of_none (fun x hx => Bool.eq_false_iff.mpr (List.any_eq_false.mp hf x hx))]
    simp [List.find?_cons]

theorem mapFindD_mapSet_ne (m : List (Nat × α)) (k k' : Nat) (v d : α)
    (h : k' ≠ k) : mapFindD (mapSet m k v) k' d = mapFindD m k' d := by
  unfold mapSet
  by_cases hany : m.any (fun e => e.1 == k)
  · rw [if_pos hany]
    unfold mapFindD
    rw [find?_map_overwrite_ne m k k' v h]
  · rw [if_neg hany]
    unfold mapFindD
    rw [List.find?_append]
    have hnone : List.find? (fun e => e.1 == k') [(k, v)] = none := by
      rw [List.find?_eq_none]
      intro x hx
      simp only [List.mem_singleton] at hx
      subst hx
      simp only [beq_iff_eq]
      omega
    rw [hnone]
    cases List.find? (fun e => e.1 == k') m <;> rfl

/-! ## Lemmas about the name-index lookup of `register_name` -/

theorem find?_of_sublist_none {p : α → Bool} {l l' : List α}
    (hs : l.Sublist l') (h : ∀ x ∈ l', p x = false) : l.find? p = none :=
  List.find?_eq_none.mpr (fun x hx => by simp [h x (List.Sublist.mem hx hs)])

/-- When no index entry's stored name matches, the lookup fails (no
sortedness needed: the walked run is part of the index). -/
theorem lookup_orig_name_eq_none {hash : String → Nat} {db : TypeDatabase} {name : String}
    (h : ∀ e ∈ db.m_orig_name_to_id, db.m_orig_names.getD e.m_id "" ≠ name) :
    lookup_orig_name hash db name = none := by
  simp only [lookup_orig_name]
  rw [find?_of_sublist_none ((List.takeWhile_sublist _).trans (List.dropWhile_sublist _))
      (fun e he => beq_eq_false_iff_ne.mpr (h e he))]
  rfl

/-- A successful lookup exhibits an index entry whose stored name
matches. -/
theorem lookup_orig_name_mem {hash : String → Nat} {db : TypeDatabase} {name : String}
    {i : Nat} (h : lookup_orig_name hash db name = some i) :
    ∃ e ∈ db.m_orig_name_to_id, e.m_id = i ∧ db.m_orig_names.getD e.m_id "" = name := by
  simp only [lookup_orig_name] at h
  obtain ⟨e, he, hei⟩ := Option.map_eq_some'.mp h
  have hp := List.find?_some he
  have hmem := List.mem_of_find?_eq_some he
  have hmem' : e ∈ db.m_orig_name_to_id :=
    List.Sublist.mem hmem ((List.takeWhile_sublist _).trans (List.dropWhile_sublist _))
  exact ⟨e, hmem', hei, by simpa using hp⟩

/-- On a hash-sorted index, an entry carrying the right hash and a
matching stored name makes the lookup succeed (the hash-run walk plus
`strcmp` confirmation finds it even among hash collisions). -/
theorem lookup_orig_name_isSome {hash : String → Nat} {db : TypeDatabase} {name : String}
    (hs : List.Pairwise (fun x y => x.m_hash_value ≤ y.m_hash_value) db.m_orig_name_to_id)
    (hex : ∃ e ∈ db.m_orig_name_to_id, e.m_hash_value = hash name ∧
      db.m_orig_names.getD e.m_id "" = name) :
    (lookup_orig_name hash db name).isSome := by
  simp only [lookup_orig_name]
  rw [Option.isSome_map', run_eq_filter hs, List.find?_isSome]
  obtain ⟨e, hmem, hh, hn⟩ := hex
  exact ⟨e, List.mem_filter.mpr ⟨hmem, by simp [hh]⟩, by rw [hn]; simp⟩

/-- Combined success lemma: sorted index, a matching entry, and
uniqueness of the matching id pin the lookup result. -/
theorem lookup_orig_name_eq_some {hash : String → Nat} {db : TypeDatabase} {name : String}
    {i : Nat}
    (hs : List.Pairwise (fun x y => x.m_hash_value ≤ y.m_hash_value) db.m_orig_name_to_id)
    (hex : ∃ e ∈ db.m_orig_name_to_id, e.m_hash_value = hash name ∧
      db.m_orig_names.getD e.m_id "" = name)
    (huniq : ∀ e ∈ db.m_orig_name_to_id, db.m_orig_names.getD e.m_id "" = name → e.m_id = i) :
    lookup_orig_name hash db name = some i := by
  obtain ⟨j, hj⟩ := Option.isSome_iff_exists.mp (lookup_orig_name_isSome hs hex)
  obtain ⟨e, hmem, hid, hmatch⟩ := lookup_orig_name_mem hj
  rw [hj, ← hid, huniq e hmem hmatch]

/-! ## Unfolding lemmas for `register_name` / `register_type` -/

theorem register_name_found {hash : String → Nat} {db : TypeDatabase} {name : String}
    {arrayRawId : TypeId} {i : Nat} (h : lookup_orig_name hash db name = some i) :
    register_name hash db name arrayRawId = (true, i, db) := by
  unfold register_name
  rw [h]

theorem register_name_fresh {hash : String → Nat} {db : TypeDatabase} {name : String}
    {arrayRawId : TypeId} (h : lookup_orig_name hash db name = none) :
    register_name hash db name arrayRawId =
      (false, db.m_type_id_counter + 1, { db with
        m_type_id_counter := db.m_type_id_counter + 1
        m_orig_name_to_id := stableSortK (fun e => e.m_hash_value)
          (db.m_orig_name_to_id ++ [⟨db.m_type_id_counter + 1, hash name⟩])
        m_orig_names := db.m_orig_names ++ [name]
        m_custom_name_to_id := stableSortK (fun e => e.m_hash_value)
          (db.m_custom_name_to_id ++
            [⟨db.m_type_id_counter + 1, hash (derive_name_of_type db arrayRawId name)⟩])
        m_custom_names := db.m_custom_names ++ [derive_name_of_type db arrayRawId name]
        m_type_list := db.m_type_list ++ [db.m_type_id_counter + 1] }) := by
  unfold register_name
  rw [h]

theorem register_type_found {hash : String → Nat} {db : TypeDatabase} {a : RegTypeArgs}
    {i : Nat} (h : lookup_orig_name hash db a.name = some i) :
    register_type hash db a = (i, db) := by
  unfold register_type
  rw [register_name_found h]

/-- Fresh registration: the fields `register_base_class_info` leaves
alone, read off the record produced by `register_type`. -/
theorem register_type_fresh_fields {hash : String → Nat} {db : TypeDatabase}
    {a : RegTypeArgs} (h : lookup_orig_name hash db a.name = none) :
    (register_type hash db a).1 = db.m_type_id_counter + 1 ∧
    (register_type hash db a).2.m_orig_name_to_id =
      stableSortK (fun e => e.m_hash_value)
        (db.m_orig_name_to_id ++ [⟨db.m_type_id_counter + 1, hash a.name⟩]) ∧
    (register_type hash db a).2.m_orig_names = db.m_orig_names ++ [a.name] ∧
    (register_type hash db a).2.m_type_id_counter = db.m_type_id_counter + 1 := by
  unfold register_type
  rw [register_name_fresh h]
  refine ⟨rfl, ?_, ?_, ?_⟩ <;> simp [register_base_class_info]

/-- Claim C1: calling `register_type` a second time with a name that the
first call registered (or found) returns the same TypeId and leaves the
whole database — every name index, attribute table and inheritance
table — exactly as the first call left it. The hypotheses are the
name-index invariants the registry maintains for every reachable state:
the index is sorted by hash, each entry's hash is the hash of its stored
name, entry ids index into the name table, and the name table holds one
name per allocated id plus the invalid dummy. -/
theorem C1_reregister_same_name_idempotent
    (hash : String → Nat) (db : TypeDatabase) (a a' : RegTypeArgs)
    (hname : a'.name = a.name)
    (hsort : List.Pairwise (fun x y => x.m_hash_value ≤ y.m_hash_value) db.m_orig_name_to_id)
    (hhash : ∀ e ∈ db.m_orig_name_to_id,
      e.m_hash_value = hash (db.m_orig_names.getD e.m_id ""))
    (hbound : ∀ e ∈ db.m_orig_name_to_id, e.m_id < db.m_orig_names.length)
    (hcnt : db.m_orig_names.length = db.m_type_id_counter + 1) :
    register_type hash (register_type hash db a).2 a' =
      ((register_type hash db a).1, (register_type hash db a).2) := by
  cases hcase : lookup_orig_name hash db a.name with
  | some i =>
    rw [register_type_found hcase]
    exact register_type_found (hname ▸ hcase)
  | none =>
    obtain ⟨hid, hidx, hnames, _⟩ := register_type_fresh_fields hcase
    have hnomatch : ∀ e ∈ db.m_orig_name_to_id,
        db.m_orig_names.getD e.m_id "" ≠ a.name := by
      intro e he hmatch
      have hsome := lookup_orig_name_isSome hsort ⟨e, he, by rw [hhash e he, hmatch], hmatch⟩
      rw [hcase] at hsome
      exact absurd hsome (by simp)
    have hlook2 : lookup_orig_name hash (register_type hash db a).2 a'.name =
        some (db.m_type_id_counter + 1) := by
      apply lookup_orig_name_eq_some
      · rw [hidx]
        exact sorted_stableSortK _
      · refine ⟨⟨db.m_type_id_counter + 1, hash a.name⟩, ?_, by simp [hname], ?_⟩
        · rw [hidx, mem_stableSortK]
          simp
        · rw [hnames, hname]
          have hlen : db.m_type_id_counter + 1 = db.m_orig_names.length := hcnt.symm
          rw [List.getD_eq_getElem?_getD]
          simp only [hlen, List.getElem?_concat_length, Option.getD_some]
      · intro e he hematch
        rw [hidx, mem_stableSortK] at he
        rcases List.mem_append.mp he with he | he
        · exfalso
          have hb := hbound e he
          rw [hnames, List.getD_append _ _ _ _ hb, hname] at hematch
          exact hnomatch e he hematch
        · rw [List.mem_singleton.mp he]
    rw [register_type_found hlook2, hid]

/-- Witness for C1: a concrete database, hash function and argument
record discharging every hypothesis. -/
theorem C1_reregister_same_name_idempotent_witness :
    register_type (fun s => s.length)
        (register_type (fun s => s.length) initial_db
          { name := "int", rawId := 0, wrappedId := 0, arrayRawId := 0, baseClasses := [],
            derivedPtr := 0, variantPtr := 0, typeSize := 4, isClass := false, isEnum := false,
            isArray := false, isPointer := false, isArithmetic := true, isFnPtr := false,
            isMemObjPtr := false, isMemFnPtr := false, pointerDim := 0 }).2
        { name := "int", rawId := 0, wrappedId := 0, arrayRawId := 0, baseClasses := [],
          derivedPtr := 0, variantPtr := 0, typeSize := 4, isClass := false, isEnum := false,
          isArray := false, isPointer := false, isArithmetic := true, isFnPtr := false,
          isMemObjPtr := false, isMemFnPtr := false, pointerDim := 0 } =
      ((register_type (fun s => s.length) initial_db
          { name := "int", rawId := 0, wrappedId := 0, arrayRawId := 0, baseClasses := [],
            derivedPtr := 0, variantPtr := 0, typeSize := 4, isClass := false, isEnum := false,
            isArray := false, isPointer := false, isArithmetic := true, isFnPtr := false,
            isMemObjPtr := false, isMemFnPtr := false, pointerDim := 0 }).1,
        (register_type (fun s => s.length) initial_db
          { name := "int", rawId := 0, wrappedId := 0, arrayRawId := 0, baseClasses := [],
            derivedPtr := 0, variantPtr := 0, typeSize := 4, isClass := false, isEnum := false,
            isArray := false, isPointer := false, isArithmetic := true, isFnPtr := false,
            isMemObjPtr := false, isMemFnPtr := false, pointerDim := 0 }).2) :=
  C1_reregister_same_name_idempotent (fun s => s.length) initial_db _ _ rfl
    (by decide) (by decide) (by decide) (by decide)

/-! ## More helpers: takeWhile / dropWhile over sorted lists -/

theorem takeWhile_append_of_all {p : α → Bool} {A B : List α}
    (h : ∀ x ∈ A, p x = true) : (A ++ B).takeWhile p = A ++ B.takeWhile p := by
  induction A with
  | nil => rfl
  | cons x xs ih =>
    rw [List.cons_append, List.takeWhile_cons, if_pos (h x (by simp)),
        ih (fun y hy => h y (by simp [hy])), List.cons_append]

theorem dropWhile_le_gt {key : α → Nat} {l : List α} {k : Nat}
    (hs : List.Pairwise (fun x y => key x ≤ key y) l) :
    ∀ x ∈ l.dropWhile (fun b => decide (key b ≤ k)), k < key x := by
  induction l with
  | nil => simp
  | cons y l ih =>
    rcases List.pairwise_cons.mp hs with ⟨hy, hl⟩
    by_cases hyk : key y ≤ k
    · rw [List.dropWhile_cons, if_pos (by simpa using hyk)]
      exact ih hl
    · rw [List.dropWhile_cons, if_neg (by simpa using hyk)]
      intro x hx
      rcases List.mem_cons.mp hx with rfl | hx
      · omega
      · have := hy x hx
        omega

theorem mem_takeWhile_le {l : List (Nat × α)} {k : Nat} {x : Nat × α}
    (hx : x ∈ l.takeWhile (fun b => decide (b.1 ≤ k))) : x.1 ≤ k := by
  have h := List.mem_takeWhile_imp hx
  simpa using h

/-! ## Metadata: claims C4 and C5 -/

theorem register_metadata_fresh {db : TypeDatabase} {t : TypeId} (data : List (Nat × Nat))
    (ht : is_valid t = true) (hne : data.isEmpty = false)
    (hnone : get_metadata_list db t = none) :
    register_metadata db t data =
      { db with m_metadata_type_list :=
          stableSortK (fun e => e.1) (db.m_metadata_type_list ++ [(t, data)]) } := by
  unfold register_metadata
  rw [ht, hne]
  simp only [Bool.not_true, Bool.or_self, Bool.false_eq_true, if_false]
  rw [hnone]

theorem register_metadata_existing {db : TypeDatabase} {t : TypeId} (data : List (Nat × Nat))
    {v : List (Nat × Nat)} (ht : is_valid t = true) (hne : data.isEmpty = false)
    (hsome : get_metadata_list db t = some v) :
    register_metadata db t data = db := by
  unfold register_metadata
  rw [ht, hne]
  simp only [Bool.not_true, Bool.or_self, Bool.false_eq_true, if_false]
  rw [hsome]

/-- Claim C4: for a valid type with no metadata yet, registering
`[(K, v1)]` and then `[(K, v2)]` leaves `get_metadata` returning `v1` —
the first-registered value for a key wins, the later duplicate is
dropped. (The second call leaves the stored vector untouched.) -/
theorem C4_metadata_duplicate_key_first_wins
    (db : TypeDatabase) (t : TypeId) (K v1 v2 : Nat)
    (ht : is_valid t = true)
    (hsort : List.Pairwise (fun x y => x.1 ≤ y.1) db.m_metadata_type_list)
    (hnone : get_metadata_list db t = none) :
    get_metadata (register_metadata (register_metadata db t [(K, v1)]) t [(K, v2)]) t K =
      some v1 := by
  have hnone' : getById db.m_metadata_type_list t = none := hnone
  have hno : ∀ e ∈ db.m_metadata_type_list, e.1 ≠ t := getById_none_not_mem hsort hnone'
  have hdb1 := register_metadata_fresh [(K, v1)] ht rfl hnone
  have hchar : stableSortK (fun e => e.1) (db.m_metadata_type_list ++ [(t, [(K, v1)])]) =
      db.m_metadata_type_list.takeWhile (fun b => decide (b.1 ≤ t)) ++
        (t, [(K, v1)]) :: db.m_metadata_type_list.dropWhile (fun b => decide (b.1 ≤ t)) :=
    stableSortK_sorted_append_single hsort
  have hA : ∀ e ∈ db.m_metadata_type_list.takeWhile (fun b => decide (b.1 ≤ t)),
      (decide (e.1 < t)) = true := by
    intro e he
    have h1 : e.1 ≤ t := mem_takeWhile_le he
    have h2 := hno e (List.Sublist.mem he (List.takeWhile_sublist _))
    simp only [decide_eq_true_eq]
    omega
  have hget1 : get_metadata_list (register_metadata db t [(K, v1)]) t = some [(K, v1)] := by
    rw [hdb1]
    show getById (stableSortK (fun e => e.1)
      (db.m_metadata_type_list ++ [(t, [(K, v1)])])) t = some [(K, v1)]
    rw [hchar]
    exact getById_append_mid hA rfl
  rw [register_metadata_existing [(K, v2)] ht rfl hget1]
  unfold get_metadata
  rw [hget1]
  simp [get_metadata_in, List.dropWhile_cons]

/-- Witness for C4 at a concrete database, type and key. -/
theorem C4_metadata_duplicate_key_first_wins_witness :
    get_metadata (register_metadata (register_metadata initial_db 1 [(5, 1)]) 1 [(5, 2)]) 1 5 =
      some 1 :=
  C4_metadata_duplicate_key_first_wins initial_db 1 5 1 2 (by decide) (by decide) (by decide)

/-- Claim C5 (code bug): a type already holding a metadata list never
receives new entries. With metadata `{5 ↦ 50}` stored for type 1,
registering the fresh key 7 leaves the database completely unchanged
(line 680 of the source copies the stored vector by value and all
insertion and sorting happens on the discarded copy), so the lookup of
key 7 yields the invalid sentinel instead of 70. -/
theorem C5_metadata_new_key_never_stored :
    get_metadata (register_metadata (register_metadata initial_db 1 [(5, 50)]) 1 [(7, 70)])
        1 7 = none ∧
    register_metadata (register_metadata initial_db 1 [(5, 50)]) 1 [(7, 70)] =
      register_metadata initial_db 1 [(5, 50)] := by
  exact ⟨by decide, by decide⟩

/-! ## Comparators: claim C7 -/

/-- Counterexample to claim C7 as stated: after registering comparator
10 and then comparator 20 for type 1, `get_comparator` returns the
FIRST-registered comparator 10, not the last-registered 20. -/
theorem C7_comparator_last_write_counterexample :
    get_comparator (register_comparator (register_comparator initial_db 1 10) 1 20) 1 =
        some 10 ∧
    get_comparator (register_comparator (register_comparator initial_db 1 10) 1 20) 1 ≠
        some 20 := by
  exact ⟨by decide, by decide⟩

/-- Claim C7 amended: stable sort keeps the earlier-registered
comparator in front of the equal-id run, and `lower_bound` takes the
first id match, so for a type with no previous comparator the
FIRST-registered comparator is the one `get_comparator` returns; later
registrations for the same id are stored but unreachable. -/
theorem C7_comparator_first_registration_wins
    (db : TypeDatabase) (t : TypeId) (c1 c2 : Nat)
    (ht : is_valid t = true)
    (hsort : List.Pairwise (fun x y => x.1 ≤ y.1) db.m_type_comparator_list)
    (hnone : get_comparator db t = none) :
    get_comparator (register_comparator (register_comparator db t c1) t c2) t = some c1 := by
  have hnone' : getById db.m_type_comparator_list t = none := hnone
  have hno : ∀ e ∈ db.m_type_comparator_list, e.1 ≠ t := getById_none_not_mem hsort hnone'
  have hreg : ∀ (d : TypeDatabase) (c : Nat), register_comparator d t c =
      { d with m_type_comparator_list :=
          stableSortK (fun e => e.1) (d.m_type_comparator_list ++ [(t, c)]) } := by
    intro d c
    unfold register_comparator
    rw [ht]
    rfl
  rw [hreg, hreg]
  have h1 : stableSortK (fun e => e.1) (db.m_type_comparator_list ++ [(t, c1)]) =
      db.m_type_comparator_list.takeWhile (fun b => decide (b.1 ≤ t)) ++
        (t, c1) :: db.m_type_comparator_list.dropWhile (fun b => decide (b.1 ≤ t)) :=
    stableSortK_sorted_append_single hsort
  have hAle : ∀ x ∈ db.m_type_comparator_list.takeWhile (fun b => decide (b.1 ≤ t)),
      (decide (x.1 ≤ t)) = true := by
    intro x hx
    simpa using mem_takeWhile_le hx
  have hAlt : ∀ x ∈ db.m_type_comparator_list.takeWhile (fun b => decide (b.1 ≤ t)),
      (decide (x.1 < t)) = true := by
    intro x hx
    have h2 := hno x (List.Sublist.mem hx (List.takeWhile_sublist _))
    have h3 : x.1 ≤ t := mem_takeWhile_le hx
    simp only [decide_eq_true_eq]
    omega
  have hBf : ∀ x ∈ db.m_type_comparator_list.dropWhile (fun b => decide (b.1 ≤ t)),
      (decide (x.1 ≤ t)) = false := by
    intro x hx
    have hgt := dropWhile_le_gt hsort x hx
    simp only [decide_eq_false_iff_not]
    omega
  have hsorted1 : List.Pairwise (fun x y => x.1 ≤ y.1)
      (db.m_type_comparator_list.takeWhile (fun b => decide (b.1 ≤ t)) ++
        (t, c1) :: db.m_type_comparator_list.dropWhile (fun b => decide (b.1 ≤ t))) :=
    h1 ▸ sorted_stableSortK _
  show getById (stableSortK (fun e => e.1)
    ((stableSortK (fun e => e.1) (db.m_type_comparator_list ++ [(t, c1)])) ++ [(t, c2)])) t =
      some c1
  rw [h1, stableSortK_sorted_append_single hsorted1]
  have htw : (db.m_type_comparator_list.takeWhile (fun b => decide (b.1 ≤ t)) ++
      (t, c1) :: db.m_type_comparator_list.dropWhile (fun b => decide (b.1 ≤ t))).takeWhile
        (fun b => decide (b.1 ≤ t)) =
      db.m_type_comparator_list.takeWhile (fun b => decide (b.1 ≤ t)) ++ [(t, c1)] := by
    rw [takeWhile_append_of_all hAle, List.takeWhile_cons, if_pos (by simp),
        takeWhile_eq_nil_of_all hBf]
  have hdw : (db.m_type_comparator_list.takeWhile (fun b => decide (b.1 ≤ t)) ++
      (t, c1) :: db.m_type_comparator_list.dropWhile (fun b => decide (b.1 ≤ t))).dropWhile
        (fun b => decide (b.1 ≤ t)) =
      db.m_type_comparator_list.dropWhile (fun b => decide (b.1 ≤ t)) := by
    rw [dropWhile_append_of_all hAle, List.dropWhile_cons, if_pos (by simp),
        dropWhile_eq_self_of_all hBf]
  rw [htw, hdw]
  have hassoc : (db.m_type_comparator_list.takeWhile (fun b => decide (b.1 ≤ t)) ++ [(t, c1)]) ++
      (t, c2) :: db.m_type_comparator_list.dropWhile (fun b => decide (b.1 ≤ t)) =
      db.m_type_comparator_list.takeWhile (fun b => decide (b.1 ≤ t)) ++
        (t, c1) :: ((t, c2) :: db.m_type_comparator_list.dropWhile (fun b => decide (b.1 ≤ t))) := by
    simp
  rw [hassoc]
  exact getById_append_mid hAlt rfl

/-- Witness for the amended C7 at a concrete database. -/
theorem C7_comparator_first_registration_wins_witness :
    get_comparator (register_comparator (register_comparator initial_db 1 10) 1 20) 1 =
      some 10 :=
  C7_comparator_first_registration_wins initial_db 1 10 20 (by decide) (by decide) (by decide)

/-! ## Invalid-type handling: claim C8 -/

/-- Counterexample to claim C8 as stated: `register_destructor` has no
validity guard, so registering a destructor for the invalid type 0
mutates the registry, and the subsequent query for the invalid type
returns the stored destructor instead of the empty sentinel. -/
theorem C8_invalid_type_counterexample :
    register_destructor initial_db 0 7 ≠ initial_db ∧
    get_destructor (register_destructor initial_db 0 7) 0 = some 7 := by
  exact ⟨by decide, by decide⟩

/-- Claim C8 amended: every listed registration function EXCEPT
`register_destructor` is an exact no-op on the invalid type;
`register_destructor` is missing the guard — on the invalid type (with
no invalid-keyed entry yet) it stores the destructor under id 0 and
`get_destructor` of the invalid type then returns it rather than the
empty sentinel. -/
theorem C8_invalid_type_guards
    (db : TypeDatabase) (p : Property) (m : Method) (c : Constructor)
    (md : List (Nat × Nat)) (cv : Converter) (cp d : Nat) (n : String)
    (hash : String → Nat) :
    register_property db 0 p = db ∧
    register_method db 0 m = db ∧
    register_constructor db 0 c = db ∧
    register_metadata db 0 md = db ∧
    register_converter db 0 cv = db ∧
    register_comparator db 0 cp = db ∧
    register_custom_name hash db 0 n = db ∧
    (mapFind? db.m_type_dtor_map 0 = none →
      register_destructor db 0 d =
        { db with m_type_dtor_map := db.m_type_dtor_map ++ [(0, d)] } ∧
      get_destructor (register_destructor db 0 d) 0 = some d) := by
  refine ⟨rfl, rfl, rfl, rfl, rfl, rfl, rfl, ?_⟩
  intro hnod
  have hreg : register_destructor db 0 d =
      { db with m_type_dtor_map := db.m_type_dtor_map ++ [(0, d)] } := by
    unfold register_destructor
    rw [hnod]
  refine ⟨hreg, ?_⟩
  rw [hreg]
  show mapFind? (db.m_type_dtor_map ++ [(0, d)]) 0 = some d
  unfold mapFind? at hnod ⊢
  rw [List.find?_append]
  have hfn : db.m_type_dtor_map.find? (fun e => e.1 == 0) = none := by
    cases hf : db.m_type_dtor_map.find? (fun e => e.1 == 0) with
    | none => rfl
    | some e =>
      rw [hf] at hnod
      simp at hnod
  rw [hfn]
  rfl

/-- Witness for the amended C8 at the freshly constructed database. -/
theorem C8_invalid_type_guards_witness :
    register_property initial_db 0 ⟨"p", 1⟩ = initial_db ∧
    register_method initial_db 0 ⟨"f", [1], 2⟩ = initial_db ∧
    register_constructor initial_db 0 ⟨[1], 3⟩ = initial_db ∧
    register_metadata initial_db 0 [(1, 2)] = initial_db ∧
    register_converter initial_db 0 ⟨2, 4⟩ = initial_db ∧
    register_comparator initial_db 0 5 = initial_db ∧
    register_custom_name (fun s => s.length) initial_db 0 "x" = initial_db ∧
    (register_destructor initial_db 0 7 =
        { initial_db with m_type_dtor_map := [(0, 7)] } ∧
      get_destructor (register_destructor initial_db 0 7) 0 = some 7) := by
  have h := C8_invalid_type_guards initial_db ⟨"p", 1⟩ ⟨"f", [1], 2⟩ ⟨[1], 3⟩
    [(1, 2)] ⟨2, 4⟩ 5 7 "x" (fun s => s.length)
  exact ⟨h.1, h.2.1, h.2.2.1, h.2.2.2.1, h.2.2.2.2.1, h.2.2.2.2.2.1, h.2.2.2.2.2.2.1,
    h.2.2.2.2.2.2.2 (by decide)⟩

/-! ## Global (non-class) registry: claim C6 -/

/-- Counterexample to claim C6 as stated: for a non-class type (id 1,
registered as a free-function home), a second global PROPERTY registered
under an existing name is rejected (`register_property` returns after
`get_global_property(name)` succeeds): the state is unchanged and only
the first entry is stored. -/
theorem C6_global_property_duplicate_counterexample :
    register_property
        (register_property
          (register_type (fun s => s.length) initial_db
            { name := "G", rawId := 0, wrappedId := 0, arrayRawId := 0, baseClasses := [],
              derivedPtr := 0, variantPtr := 0, typeSize := 8, isClass := false,
              isEnum := false, isArray := false, isPointer := false, isArithmetic := false,
              isFnPtr := false, isMemObjPtr := false, isMemFnPtr := false,
              pointerDim := 0 }).2
          1 ⟨"p", 1⟩) 1 ⟨"p", 2⟩ =
      register_property
        (register_type (fun s => s.length) initial_db
          { name := "G", rawId := 0, wrappedId := 0, arrayRawId := 0, baseClasses := [],
            derivedPtr := 0, variantPtr := 0, typeSize := 8, isClass := false,
            isEnum := false, isArray := false, isPointer := false, isArithmetic := false,
            isFnPtr := false, isMemObjPtr := false, isMemFnPtr := false,
            pointerDim := 0 }).2 1 ⟨"p", 1⟩ ∧
    (register_property
        (register_property
          (register_type (fun s => s.length) initial_db
            { name := "G", rawId := 0, wrappedId := 0, arrayRawId := 0, baseClasses := [],
              derivedPtr := 0, variantPtr := 0, typeSize := 8, isClass := false,
              isEnum := false, isArray := false, isPointer := false, isArithmetic := false,
              isFnPtr := false, isMemObjPtr := false, isMemFnPtr := false,
              pointerDim := 0 }).2
          1 ⟨"p", 1⟩) 1 ⟨"p", 2⟩).m_global_properties = [("p", ⟨"p", 1⟩)] := by
  exact ⟨by decide, by decide⟩

theorem register_method_global {db : TypeDatabase} {t : TypeId} {m : Method}
    (ht : is_valid t = true) (hc : is_class db t = false)
    (hn : get_global_method db m.m_name m.m_params = none) :
    register_method db t m =
      { db with m_global_methods := db.m_global_methods ++ [(m.m_name, m)] } := by
  unfold register_method
  rw [ht, hc, hn]
  simp

/-- Claim C6 amended, method half: two global methods under the same
name with different parameter-type lists are both stored (insertion
order preserved) and each is retrievable by name plus its own
parameter-type list; property half: a second global property under an
existing name is a no-op. -/
theorem C6_global_registry_disambiguation
    (db : TypeDatabase) (t : TypeId) (m1 m2 : Method)
    (ht : is_valid t = true) (hnc : is_class db t = false)
    (hname : m2.m_name = m1.m_name)
    (hsig : m1.m_params ≠ m2.m_params)
    (h1 : get_global_method db m1.m_name m1.m_params = none)
    (h2 : get_global_method db m2.m_name m2.m_params = none) :
    (get_global_method (register_method (register_method db t m1) t m2)
        m1.m_name m1.m_params = some m1 ∧
     get_global_method (register_method (register_method db t m1) t m2)
        m2.m_name m2.m_params = some m2) ∧
    (∀ p : Property, (get_global_property db p.m_name).isSome = true →
      register_property db t p = db) := by
  have hstep1 := register_method_global ht hnc h1
  have hnc1 : is_class (register_method db t m1) t = false := by
    rw [hstep1]
    exact hnc
  have hbeq21 : (m1.m_name == m2.m_name) = true := by simp [hname]
  have hsig12 : (m1.m_params == m2.m_params) = false := beq_eq_false_iff_ne.mpr hsig
  have hsig21 : (m2.m_params == m1.m_params) = false :=
    beq_eq_false_iff_ne.mpr (Ne.symm hsig)
  unfold get_global_method at h1 h2
  have hg2 : get_global_method (register_method db t m1) m2.m_name m2.m_params = none := by
    rw [hstep1]
    show ((((db.m_global_methods ++ [(m1.m_name, m1)]).filter
      (fun e => e.1 == m2.m_name)).map (fun e => e.2)).find?
      (fun m => compare_with_type_list m.m_params m2.m_params)) = none
    rw [List.filter_append, List.map_append, List.find?_append]
    have hone : ([(m1.m_name, m1)].filter (fun e => e.1 == m2.m_name)) = [(m1.m_name, m1)] := by
      simp [List.filter_cons, hname]
    rw [h2, Option.none_or, hone]
    simp [List.find?_cons, compare_with_type_list, hsig12]
  have hstep2 := register_method_global ht hnc1 hg2
  rw [hstep2, hstep1]
  refine ⟨⟨?_, ?_⟩, ?_⟩
  · show ((((db.m_global_methods ++ [(m1.m_name, m1)] ++ [(m2.m_name, m2)]).filter
      (fun e => e.1 == m1.m_name)).map (fun e => e.2)).find?
      (fun m => compare_with_type_list m.m_params m1.m_params)) = some m1
    rw [List.filter_append, List.filter_append, List.map_append, List.map_append,
        List.find?_append, List.find?_append, h1, Option.none_or]
    have hone : ([(m1.m_name, m1)].filter (fun e => e.1 == m1.m_name)) = [(m1.m_name, m1)] := by
      simp [List.filter_cons]
    rw [hone]
    simp [List.find?_cons, compare_with_type_list]
  · show ((((db.m_global_methods ++ [(m1.m_name, m1)] ++ [(m2.m_name, m2)]).filter
      (fun e => e.1 == m2.m_name)).map (fun e => e.2)).find?
      (fun m => compare_with_type_list m.m_params m2.m_params)) = some m2
    rw [List.filter_append, List.filter_append, List.map_append, List.map_append,
        List.find?_append, List.find?_append, h2, Option.none_or]
    have hone : ([(m1.m_name, m1)].filter (fun e => e.1 == m2.m_name)) = [(m1.m_name, m1)] := by
      simp [List.filter_cons, hname]
    have htwo : ([(m2.m_name, m2)].filter (fun e => e.1 == m2.m_name)) = [(m2.m_name, m2)] := by
      simp [List.filter_cons]
    rw [hone, htwo]
    simp [List.find?_cons, compare_with_type_list, hsig12, hsig21]
  · intro p hp
    unfold register_property
    rw [ht, hnc, hp]
    simp

/-- Witness for the amended C6: a concrete non-class type with two
same-name methods of different signatures and a duplicate global
property. -/
theorem C6_global_registry_disambiguation_witness :
    (get_global_method (register_method (register_method
        (register_type (fun s => s.length) initial_db
          { name := "G", rawId := 0, wrappedId := 0, arrayRawId := 0, baseClasses := [],
            derivedPtr := 0, variantPtr := 0, typeSize := 8, isClass := false,
            isEnum := false, isArray := false, isPointer := false, isArithmetic := false,
            isFnPtr := false, isMemObjPtr := false, isMemFnPtr := false,
            pointerDim := 0 }).2 1 ⟨"f", [1], 11⟩) 1 ⟨"f", [2], 22⟩)
        "f" [1] = some ⟨"f", [1], 11⟩ ∧
     get_global_method (register_method (register_method
        (register_type (fun s => s.length) initial_db
          { name := "G", rawId := 0, wrappedId := 0, arrayRawId := 0, baseClasses := [],
            derivedPtr := 0, variantPtr := 0, typeSize := 8, isClass := false,
            isEnum := false, isArray := false, isPointer := false, isArithmetic := false,
            isFnPtr := false, isMemObjPtr := false, isMemFnPtr := false,
            pointerDim := 0 }).2 1 ⟨"f", [1], 11⟩) 1 ⟨"f", [2], 22⟩)
        "f" [2] = some ⟨"f", [2], 22⟩) ∧
    (∀ p : Property,
      (get_global_property
        (register_type (fun s => s.length) initial_db
          { name := "G", rawId := 0, wrappedId := 0, arrayRawId := 0, baseClasses := [],
            derivedPtr := 0, variantPtr := 0, typeSize := 8, isClass := false,
            isEnum := false, isArray := false, isPointer := false, isArithmetic := false,
            isFnPtr := false, isMemObjPtr := false, isMemFnPtr := false,
            pointerDim := 0 }).2 p.m_name).isSome = true →
      register_property
        (register_type (fun s => s.length) initial_db
          { name := "G", rawId := 0, wrappedId := 0, arrayRawId := 0, baseClasses := [],
            derivedPtr := 0, variantPtr := 0, typeSize := 8, isClass := false,
            isEnum := false, isArray := false, isPointer := false, isArithmetic := false,
            isFnPtr := false, isMemObjPtr := false, isMemFnPtr := false,
            pointerDim := 0 }).2 1 p =
        (register_type (fun s => s.length) initial_db
          { name := "G", rawId := 0, wrappedId := 0, arrayRawId := 0, baseClasses := [],
            derivedPtr := 0, variantPtr := 0, typeSize := 8, isClass := false,
            isEnum := false, isArray := false, isPointer := false, isArithmetic := false,
            isFnPtr := false, isMemObjPtr := false, isMemFnPtr := false,
            pointerDim := 0 }).2) :=
  C6_global_registry_disambiguation _ 1 ⟨"f", [1], 11⟩ ⟨"f", [2], 22⟩
    (by decide) (by decide) (by decide) (by decide) (by decide) (by decide)

/-! ## Inheritance rows and duplicate bases: claim C9 -/

theorem length_orderedInsertK {key : α → Nat} (a : α) (l : List α) :
    (orderedInsertK key a l).length = l.length + 1 := by
  induction l with
  | nil => rfl
  | cons x xs ih =>
    simp only [orderedInsertK]
    by_cases h : key a ≤ key x
    · simp [h]
    · simp [h, ih]

theorem length_stableSortK {key : α → Nat} (l : List α) :
    (stableSortK key l).length = l.length := by
  induction l with
  | nil => rfl
  | cons x xs ih => simp [stableSortK, length_orderedInsertK, ih]

theorem resizeTo_of_le {l : List α} {n : Nat} {d : α} (h : l.length ≤ n) :
    resizeTo l n d = l ++ List.replicate (n - l.length) d := by
  unfold resizeTo
  by_cases hn : n ≤ l.length
  · have heq : n = l.length := Nat.le_antisymm hn h
    rw [if_pos hn, heq, Nat.sub_self]
    simp
  · rw [if_neg hn]

theorem dedup_from_tail_foldl (r : List BaseClassInfo) :
    ∀ (k : List BaseClassInfo) (s : List TypeId),
      (r.foldl (fun (acc : List BaseClassInfo × List TypeId) e =>
        if acc.2.contains e.m_base_type then acc
        else (e :: acc.1, e.m_base_type :: acc.2)) (k, s)).1 =
      (dedupKeepFirst s r).reverse ++ k := by
  induction r with
  | nil =>
    intro k s
    simp [dedupKeepFirst]
  | cons e r ih =>
    intro k s
    by_cases hc : s.contains e.m_base_type = true
    · rw [List.foldl_cons]
      dsimp only
      rw [if_pos hc, ih k s]
      simp only [dedupKeepFirst, if_pos hc]
    · rw [List.foldl_cons]
      dsimp only
      rw [if_neg hc, ih (e :: k) (e.m_base_type :: s)]
      simp only [dedupKeepFirst, if_neg hc, List.reverse_cons, List.append_assoc,
        List.singleton_append]

theorem dedup_from_tail_eq (bs : List BaseClassInfo) :
    dedup_from_tail bs = (dedupKeepFirst [] bs.reverse).reverse := by
  unfold dedup_from_tail
  rw [dedup_from_tail_foldl bs.reverse [] []]
  simp

theorem dedupKeepFirst_countP (b : TypeId) :
    ∀ (l : List BaseClassInfo) (s : List TypeId),
      (dedupKeepFirst s l).countP (fun e => e.m_base_type == b) =
        if b ∈ s then 0 else if l.any (fun e => e.m_base_type == b) then 1 else 0 := by
  intro l
  induction l with
  | nil =>
    intro s
    simp [dedupKeepFirst]
  | cons e l ih =>
    intro s
    simp only [dedupKeepFirst]
    by_cases hcont : s.contains e.m_base_type
    · rw [if_pos hcont, ih s]
      have hes : e.m_base_type ∈ s := by simpa using hcont
      by_cases hbs : b ∈ s
      · simp [hbs]
      · have hne : (e.m_base_type == b) = false := by
          simp only [beq_eq_false_iff_ne]
          intro hh
          exact hbs (hh ▸ hes)
        simp [hbs, List.any_cons, hne]
    · rw [if_neg hcont, List.countP_cons, ih (e.m_base_type :: s)]
      have hes : e.m_base_type ∉ s := by simpa using hcont
      by_cases heb : e.m_base_type = b
      · subst heb
        simp [hes, List.any_cons]
      · have hbne : (e.m_base_type == b) = false := beq_eq_false_iff_ne.mpr heb
        have hbne' : ¬ (b = e.m_base_type) := fun hh => heb hh.symm
        by_cases hbs : b ∈ s
        · simp [hbs, List.any_cons, hbne, List.mem_cons]
        · simp [hbs, List.any_cons, hbne, List.mem_cons, hbne']

theorem dedupKeepFirst_find (l : List BaseClassInfo) :
    ∀ (s : List TypeId), ∀ e ∈ dedupKeepFirst s l,
      e.m_base_type ∉ s ∧
        l.find? (fun x => x.m_base_type == e.m_base_type) = some e := by
  induction l with
  | nil =>
    intro s e he
    simp [dedupKeepFirst] at he
  | cons y l ih =>
    intro s e he
    simp only [dedupKeepFirst] at he
    by_cases hc : s.contains y.m_base_type
    · rw [if_pos hc] at he
      obtain ⟨h1, h2⟩ := ih s e he
      have hys : y.m_base_type ∈ s := by simpa using hc
      refine ⟨h1, ?_⟩
      rw [List.find?_cons_of_neg _ ?_, h2]
      simp only [beq_iff_eq]
      intro hh
      exact h1 (hh ▸ hys)
    · rw [if_neg hc] at he
      rcases List.mem_cons.mp he with rfl | he
      · exact ⟨by simpa using hc, by rw [List.find?_cons_of_pos _ (by simp)]⟩
      · obtain ⟨h1, h2⟩ := ih _ e he
        have hney : e.m_base_type ≠ y.m_base_type := by
          intro hh
          exact h1 (by simp [hh])
        refine ⟨fun hs => h1 (by simp [hs]), ?_⟩
        rw [List.find?_cons_of_neg _ ?_, h2]
        simp only [beq_iff_eq]
        exact Ne.symm hney

theorem write_base_rows_spec :
    ∀ (es : List BaseClassInfo) (bl : List TypeId) (cl : List Nat) (pos : Nat),
      pos + es.length ≤ bl.length → pos + es.length ≤ cl.length →
      write_base_rows (bl, cl) pos es =
        (bl.take pos ++ es.map (fun e => e.m_base_type) ++ bl.drop (pos + es.length),
         cl.take pos ++ es.map (fun e => e.m_rttr_cast_func) ++ cl.drop (pos + es.length)) := by
  intro es
  induction es with
  | nil =>
    intro bl cl pos h1 h2
    simp [write_base_rows, List.take_append_drop]
  | cons e es ih =>
    intro bl cl pos h1 h2
    simp only [List.length_cons] at h1 h2
    simp only [write_base_rows]
    rw [ih (bl.set pos e.m_base_type) (cl.set pos e.m_rttr_cast_func) (pos + 1)
      (by simp; omega) (by simp; omega)]
    have hgen : ∀ (l : List Nat) (v : Nat), pos + (es.length + 1) ≤ l.length →
        (l.set pos v).take (pos + 1) = l.take pos ++ [v] ∧
        (l.set pos v).drop (pos + 1 + es.length) = l.drop (pos + (es.length + 1)) := by
      intro l v hl
      have hpos : pos < l.length := by omega
      have hset : l.set pos v = l.take pos ++ v :: l.drop (pos + 1) := by
        rw [List.set_eq_take_append_cons_drop, if_pos hpos]
      have htlen : (l.take pos).length = pos := by
        rw [List.length_take]
        omega
      constructor
      · rw [hset]
        have h3 : pos + 1 = (l.take pos).length + 1 := by rw [htlen]
        rw [h3]
        have h4 : ∀ (A : List Nat) (c : Nat) (D : List Nat),
            (A ++ c :: D).take (A.length + 1) = A ++ [c] := by
          intro A c D
          induction A with
          | nil => rfl
          | cons a A ihA => simp [List.take_succ_cons, ihA]
        exact h4 _ _ _
      · rw [hset]
        have h3 : pos + 1 + es.length = (l.take pos).length + (1 + es.length) := by
          rw [htlen]
          omega
        rw [h3, List.drop_append]
        have h5 : (1 + es.length) = (es.length + 1) := by omega
        rw [h5]
        show (v :: l.drop (pos + 1)).drop (es.length + 1) = _
        rw [List.drop_succ_cons, List.drop_drop]
        congr 1
        omega
    obtain ⟨ht1, hd1⟩ := hgen bl e.m_base_type h1
    obtain ⟨ht2, hd2⟩ := hgen cl e.m_rttr_cast_func h2
    rw [ht1, hd1, ht2, hd2]
    simp [List.append_assoc]

/-- Window extraction: after growing a table to cover a fresh row and
writing `Mp` at the row start, the row reads back as `Mp` padded with
the invalid sentinel. -/
theorem written_row_extract {orig Mp : List α} {row M k : Nat} {d : α}
    (hlen : orig.length ≤ row) (hMp : Mp.length = k) (hk : k ≤ M) :
    (((orig ++ List.replicate (row + M - orig.length) d).take row ++ Mp ++
        (orig ++ List.replicate (row + M - orig.length) d).drop (row + k)).drop row).take M =
      Mp ++ List.replicate (M - k) d := by
  set full := orig ++ List.replicate (row + M - orig.length) d with hfull
  have hflen : full.length = row + M := by
    simp only [hfull, List.length_append, List.length_replicate]
    omega
  have htl : (full.take row).length = row := by
    rw [List.length_take]
    omega
  rw [List.append_assoc]
  have h0 := List.drop_left (full.take row) (Mp ++ full.drop (row + k))
  rw [htl] at h0
  rw [h0]
  have hD : full.drop (row + k) = List.replicate (M - k) d := by
    rw [hfull]
    have h3 : row + k = orig.length + (row + k - orig.length) := by omega
    rw [h3, List.drop_append, List.drop_replicate]
    congr 1
    omega
  rw [hD]
  apply List.take_of_length_le
  simp only [List.length_append, List.length_replicate, hMp]
  omega

/-- Counterexample to claim C9 as stated: registering type D with the
duplicated base list [(B, cast 10), (B, cast 20)] stores the cast
function of the LAST occurrence (20), not of the first (10), in the
conversion row. -/
theorem C9_duplicate_base_keeps_last_counterexample :
    ((register_type (fun s => s.length)
        ((register_type (fun s => s.length) initial_db (classArgs "B" [])).2)
        (classArgs "D" [⟨1, 10⟩, ⟨1, 20⟩])).2).m_conversion_list.getD 20 0 = 20 ∧
    ¬ (((register_type (fun s => s.length)
        ((register_type (fun s => s.length) initial_db (classArgs "B" [])).2)
        (classArgs "D" [⟨1, 10⟩, ⟨1, 20⟩])).2).m_conversion_list.getD 100 0 = 10) := by
  exact ⟨by decide, by decide⟩

/-- Claim C9 amended: for every `register_base_class_info` call writing
a fresh row, the stored fixed-width base row holds exactly one entry per
duplicated base — but the entry kept is the LAST occurrence of the
input list (duplicates are removed from the front): the reverse scan of
lines 957-969 keeps the first occurrence it meets walking from the
tail. -/
theorem C9_duplicate_bases_one_entry_last_occurrence_kept
    (db : TypeDatabase) (srcId rawId : TypeId) (bs : List BaseClassInfo)
    (hb : db.m_base_class_list.length ≤ RTTR_MAX_INHERIT_TYPES_COUNT * rawId)
    (hc : db.m_conversion_list.length ≤ RTTR_MAX_INHERIT_TYPES_COUNT * rawId)
    (hfan : (dedup_from_tail bs).length ≤ RTTR_MAX_INHERIT_TYPES_COUNT) :
    (((register_base_class_info db srcId rawId bs).m_base_class_list.drop
        (RTTR_MAX_INHERIT_TYPES_COUNT * rawId)).take RTTR_MAX_INHERIT_TYPES_COUNT =
      (stableSortK (fun e => e.m_base_type) (dedup_from_tail bs)).map
          (fun e => e.m_base_type) ++
        List.replicate (RTTR_MAX_INHERIT_TYPES_COUNT - (dedup_from_tail bs).length) 0) ∧
    (((register_base_class_info db srcId rawId bs).m_conversion_list.drop
        (RTTR_MAX_INHERIT_TYPES_COUNT * rawId)).take RTTR_MAX_INHERIT_TYPES_COUNT =
      (stableSortK (fun e => e.m_base_type) (dedup_from_tail bs)).map
          (fun e => e.m_rttr_cast_func) ++
        List.replicate (RTTR_MAX_INHERIT_TYPES_COUNT - (dedup_from_tail bs).length) 0) ∧
    (∀ b, (dedup_from_tail bs).countP (fun e => e.m_base_type == b) =
      if bs.any (fun e => e.m_base_type == b) then 1 else 0) ∧
    (∀ e ∈ dedup_from_tail bs,
      bs.reverse.find? (fun x => x.m_base_type == e.m_base_type) = some e) := by
  have hklen : (stableSortK (fun e => e.m_base_type) (dedup_from_tail bs)).length =
      (dedup_from_tail bs).length := length_stableSortK _
  have hmax1 : max db.m_base_class_list.length
      (RTTR_MAX_INHERIT_TYPES_COUNT * rawId + RTTR_MAX_INHERIT_TYPES_COUNT) =
      RTTR_MAX_INHERIT_TYPES_COUNT * rawId + RTTR_MAX_INHERIT_TYPES_COUNT :=
    Nat.max_eq_right (le_trans hb (Nat.le_add_right _ _))
  have hmax2 : max db.m_conversion_list.length
      (RTTR_MAX_INHERIT_TYPES_COUNT * rawId + RTTR_MAX_INHERIT_TYPES_COUNT) =
      RTTR_MAX_INHERIT_TYPES_COUNT * rawId + RTTR_MAX_INHERIT_TYPES_COUNT :=
    Nat.max_eq_right (le_trans hc (Nat.le_add_right _ _))
  have hblfull : resizeTo db.m_base_class_list
      (max db.m_base_class_list.length
        (RTTR_MAX_INHERIT_TYPES_COUNT * rawId + RTTR_MAX_INHERIT_TYPES_COUNT)) 0 =
      db.m_base_class_list ++ List.replicate
        (RTTR_MAX_INHERIT_TYPES_COUNT * rawId + RTTR_MAX_INHERIT_TYPES_COUNT -
          db.m_base_class_list.length) 0 := by
    rw [hmax1]
    exact resizeTo_of_le (le_trans hb (Nat.le_add_right _ _))
  have hclfull : resizeTo db.m_conversion_list
      (max db.m_conversion_list.length
        (RTTR_MAX_INHERIT_TYPES_COUNT * rawId + RTTR_MAX_INHERIT_TYPES_COUNT)) 0 =
      db.m_conversion_list ++ List.replicate
        (RTTR_MAX_INHERIT_TYPES_COUNT * rawId + RTTR_MAX_INHERIT_TYPES_COUNT -
          db.m_conversion_list.length) 0 := by
    rw [hmax2]
    exact resizeTo_of_le (le_trans hc (Nat.le_add_right _ _))
  have hlb : (db.m_base_class_list ++ List.replicate
      (RTTR_MAX_INHERIT_TYPES_COUNT * rawId + RTTR_MAX_INHERIT_TYPES_COUNT -
        db.m_base_class_list.length) 0).length =
      RTTR_MAX_INHERIT_TYPES_COUNT * rawId + RTTR_MAX_INHERIT_TYPES_COUNT := by
    simp only [List.length_append, List.length_replicate]
    omega
  have hlc : (db.m_conversion_list ++ List.replicate
      (RTTR_MAX_INHERIT_TYPES_COUNT * rawId + RTTR_MAX_INHERIT_TYPES_COUNT -
        db.m_conversion_list.length) 0).length =
      RTTR_MAX_INHERIT_TYPES_COUNT * rawId + RTTR_MAX_INHERIT_TYPES_COUNT := by
    simp only [List.length_append, List.length_replicate]
    omega
  have hproj1 : (register_base_class_info db srcId rawId bs).m_base_class_list =
      (write_base_rows
        (resizeTo db.m_base_class_list
          (max db.m_base_class_list.length
            (RTTR_MAX_INHERIT_TYPES_COUNT * rawId + RTTR_MAX_INHERIT_TYPES_COUNT)) 0,
         resizeTo db.m_conversion_list
          (max db.m_conversion_list.length
            (RTTR_MAX_INHERIT_TYPES_COUNT * rawId + RTTR_MAX_INHERIT_TYPES_COUNT)) 0)
        (RTTR_MAX_INHERIT_TYPES_COUNT * rawId)
        (stableSortK (fun e => e.m_base_type) (dedup_from_tail bs))).1 := rfl
  have hproj2 : (register_base_class_info db srcId rawId bs).m_conversion_list =
      (write_base_rows
        (resizeTo db.m_base_class_list
          (max db.m_base_class_list.length
            (RTTR_MAX_INHERIT_TYPES_COUNT * rawId + RTTR_MAX_INHERIT_TYPES_COUNT)) 0,
         resizeTo db.m_conversion_list
          (max db.m_conversion_list.length
            (RTTR_MAX_INHERIT_TYPES_COUNT * rawId + RTTR_MAX_INHERIT_TYPES_COUNT)) 0)
        (RTTR_MAX_INHERIT_TYPES_COUNT * rawId)
        (stableSortK (fun e => e.m_base_type) (dedup_from_tail bs))).2 := rfl
  have hspec := write_base_rows_spec
    (stableSortK (fun e => e.m_base_type) (dedup_from_tail bs))
    (db.m_base_class_list ++ List.replicate
      (RTTR_MAX_INHERIT_TYPES_COUNT * rawId + RTTR_MAX_INHERIT_TYPES_COUNT -
        db.m_base_class_list.length) 0)
    (db.m_conversion_list ++ List.replicate
      (RTTR_MAX_INHERIT_TYPES_COUNT * rawId + RTTR_MAX_INHERIT_TYPES_COUNT -
        db.m_conversion_list.length) 0)
    (RTTR_MAX_INHERIT_TYPES_COUNT * rawId)
    (by rw [hlb]; omega) (by rw [hlc]; omega)
  have hMp1 : ((stableSortK (fun e => e.m_base_type) (dedup_from_tail bs)).map
      (fun e => e.m_base_type)).length = (dedup_from_tail bs).length := by
    rw [List.length_map]
    exact hklen
  have hMp2 : ((stableSortK (fun e => e.m_base_type) (dedup_from_tail bs)).map
      (fun e => e.m_rttr_cast_func)).length = (dedup_from_tail bs).length := by
    rw [List.length_map]
    exact hklen
  refine ⟨?_, ?_, ?_, ?_⟩
  · rw [hproj1, hblfull, hclfull, hspec]
    dsimp only
    rw [hklen]
    exact written_row_extract hb hMp1 hfan
  · rw [hproj2, hblfull, hclfull, hspec]
    dsimp only
    rw [hklen]
    exact written_row_extract hc hMp2 hfan
  · intro b
    rw [dedup_from_tail_eq, List.countP_reverse, dedupKeepFirst_countP b bs.reverse []]
    rw [if_neg (List.not_mem_nil b)]
    have hany : bs.reverse.any (fun e => e.m_base_type == b) =
        bs.any (fun e => e.m_base_type == b) := by
      simp [List.any_eq_true, List.mem_reverse]
    rw [hany]
  · intro e he
    rw [dedup_from_tail_eq, List.mem_reverse] at he
    exact (dedupKeepFirst_find bs.reverse [] e he).2

/-- Witness for the amended C9: the virtual-diamond input
[(B, cast 10), (B, cast 20)] against a concrete database. -/
theorem C9_duplicate_bases_one_entry_last_occurrence_kept_witness :
    ((((register_base_class_info initial_db 2 1
        [⟨1, 10⟩, ⟨1, 20⟩]).m_base_class_list.drop 10).take 10 =
      [1] ++ List.replicate 9 0)) ∧
    ((((register_base_class_info initial_db 2 1
        [⟨1, 10⟩, ⟨1, 20⟩]).m_conversion_list.drop 10).take 10 =
      [20] ++ List.replicate 9 0)) ∧
    ((dedup_from_tail [⟨1, 10⟩, ⟨1, 20⟩]).countP
      (fun e => e.m_base_type == 1) = 1) ∧
    (([(⟨1, 10⟩ : BaseClassInfo), ⟨1, 20⟩].reverse.find?
      (fun x => x.m_base_type == (⟨1, 20⟩ : BaseClassInfo).m_base_type)) =
        some ⟨1, 20⟩) := by
  have h := C9_duplicate_bases_one_entry_last_occurrence_kept initial_db 2 1
    [⟨1, 10⟩, ⟨1, 20⟩] (by decide) (by decide) (by decide)
  exact ⟨h.1, h.2.1, h.2.2.1 1, h.2.2.2 ⟨1, 20⟩ (by decide)⟩

/-! ## The two-base inheritance scenario: claims C2 and C3 -/

/-- Full unfolding of a fresh `register_type` call: the pair of the new
id and the database after all lock-step appends and the inheritance-row
registration. -/
theorem register_type_fresh_eq {hash : String → Nat} {db : TypeDatabase} (a : RegTypeArgs)
    (h : lookup_orig_name hash db a.name = none) :
    register_type hash db a =
      (db.m_type_id_counter + 1,
        register_base_class_info
          { db with
            m_type_id_counter := db.m_type_id_counter + 1
            m_orig_name_to_id := stableSortK (fun e => e.m_hash_value)
              (db.m_orig_name_to_id ++ [⟨db.m_type_id_counter + 1, hash a.name⟩])
            m_orig_names := db.m_orig_names ++ [a.name]
            m_custom_name_to_id := stableSortK (fun e => e.m_hash_value)
              (db.m_custom_name_to_id ++
                [⟨db.m_type_id_counter + 1, hash (derive_name_of_type db a.arrayRawId a.name)⟩])
            m_custom_names := db.m_custom_names ++ [derive_name_of_type db a.arrayRawId a.name]
            m_type_list := db.m_type_list ++ [db.m_type_id_counter + 1]
            m_raw_type_list := db.m_raw_type_list ++
              [if a.rawId = 0 then db.m_type_id_counter + 1 else a.rawId]
            m_wrapped_type_list := db.m_wrapped_type_list ++ [a.wrappedId]
            m_array_raw_type_list := db.m_array_raw_type_list ++
              [if a.arrayRawId = 0 then db.m_type_id_counter + 1 else a.arrayRawId]
            m_get_derived_info_func_list :=
              (resizeTo db.m_get_derived_info_func_list
                (max db.m_get_derived_info_func_list.length
                  ((if a.rawId = 0 then db.m_type_id_counter + 1 else a.rawId) + 1)) 0).set
                (if a.rawId = 0 then db.m_type_id_counter + 1 else a.rawId) a.derivedPtr
            m_variant_create_func_list := db.m_variant_create_func_list ++ [a.variantPtr]
            m_type_size := db.m_type_size ++ [a.typeSize]
            m_is_class_list := db.m_is_class_list ++ [a.isClass]
            m_is_enum_list := db.m_is_enum_list ++ [a.isEnum]
            m_is_array_list := db.m_is_array_list ++ [a.isArray]
            m_is_pointer_list := db.m_is_pointer_list ++ [a.isPointer]
            m_is_arithmetic_list := db.m_is_arithmetic_list ++ [a.isArithmetic]
            m_is_function_pointer_list := db.m_is_function_pointer_list ++ [a.isFnPtr]
            m_is_member_object_pointer_list :=
              db.m_is_member_object_pointer_list ++ [a.isMemObjPtr]
            m_is_member_function_pointer_list :=
              db.m_is_member_function_pointer_list ++ [a.isMemFnPtr]
            m_pointer_dim_list := db.m_pointer_dim_list ++ [a.pointerDim] }
          (db.m_type_id_counter + 1)
          (if a.rawId = 0 then db.m_type_id_counter + 1 else a.rawId)
          a.baseClasses) := by
  unfold register_type
  rw [register_name_fresh h]

/-- Projections of the freshly constructed database used while
reasoning about the scenario. -/
theorem initial_orig_name_to_id : initial_db.m_orig_name_to_id = [] := rfl

theorem initial_orig_names : initial_db.m_orig_names = ["!invalid_type!"] := rfl

theorem initial_counter : initial_db.m_type_id_counter = 0 := rfl

/-- The two-base scenario starts in the skeleton state with no
properties registered anywhere. -/
theorem twoBaseScenario_inv (hash : String → Nat) (nB1 nB2 nT : String) (f1 f2 : Nat)
    (h21 : nB2 ≠ nB1) (h31 : nT ≠ nB1) (h32 : nT ≠ nB2) :
    TwoBaseInv [] [] [] (twoBaseScenario hash nB1 nB2 nT f1 f2) := by
  have e1 : lookup_orig_name hash initial_db (classArgs nB1 []).name = none := by
    apply lookup_orig_name_eq_none
    intro e he
    rw [initial_orig_name_to_id] at he
    simp at he
  have s1 : (register_type hash initial_db (classArgs nB1 [])).2 =
      scenario_db1 hash nB1 := by
    rw [register_type_fresh_eq (classArgs nB1 []) e1]
    rfl
  have e2 : lookup_orig_name hash (scenario_db1 hash nB1) (classArgs nB2 []).name =
      none := by
    apply lookup_orig_name_eq_none
    intro e he
    simp only [scenario_db1, List.mem_singleton] at he
    subst he
    simp only [scenario_db1, classArgs, List.getD_cons_succ, List.getD_cons_zero]
    exact fun hh => h21 hh.symm
  have s2 : (register_type hash (scenario_db1 hash nB1) (classArgs nB2 [])).2 =
      scenario_db2 hash nB1 nB2 := by
    rw [register_type_fresh_eq (classArgs nB2 []) e2]
    rfl
  have e3 : lookup_orig_name hash (scenario_db2 hash nB1 nB2)
      (classArgs nT [⟨1, f1⟩, ⟨2, f2⟩]).name = none := by
    apply lookup_orig_name_eq_none
    intro e he
    simp only [scenario_db2, mem_stableSortK, List.mem_cons, List.mem_singleton,
      List.not_mem_nil, or_false] at he
    rcases he with he | he <;> subst he <;>
      simp only [scenario_db2, classArgs, List.getD_cons_succ, List.getD_cons_zero]
    · exact fun hh => h31 hh.symm
    · exact fun hh => h32 hh.symm
  have s3 : (register_type hash (scenario_db2 hash nB1 nB2)
      (classArgs nT [⟨1, f1⟩, ⟨2, f2⟩])).2 = scenario_db3 hash nB1 nB2 nT f1 f2 := by
    rw [register_type_fresh_eq (classArgs nT [⟨1, f1⟩, ⟨2, f2⟩]) e3]
    rfl
  unfold twoBaseScenario
  rw [s1, s2, s3]
  exact ⟨rfl, rfl, rfl, rfl, rfl, rfl, rfl, rfl, rfl, rfl, rfl, rfl⟩

/-! ## The class-list recomputation under property registration (C2, C3) -/

/-- One-step unfolding of the class-list recomputation (lines 160-188):
rebuild the list of `t` from its bases' declared lists followed by its
own, then recurse into the derived classes with one unit of fuel
less. -/
theorem update_class_list_succ (db : TypeDatabase) (fuel : Nat) (t : TypeId)
    (tmap cmap : List (Nat × List α)) :
    update_class_list db (fuel + 1) t tmap cmap =
      (get_derived_classes db t).foldl (fun cm d => update_class_list db fuel d tmap cm)
        (mapSet cmap t
          ((get_base_classes db t).flatMap (fun b => mapFindD tmap b []) ++
            mapFindD tmap t [])) := rfl

/-- Evaluation of `register_property` on a class type when the new name
is not yet declared on that type (lines 220-231): append to the declared
list and recompute the flattened lists. -/
theorem register_property_class_eq (db : TypeDatabase) (t : TypeId) (p : Property)
    (hv : is_valid t = true) (hc : is_class db t = true)
    (hfresh : get_type_property db t p.m_name = none) :
    register_property db t p =
      { db with
        m_type_property_map :=
          mapSet db.m_type_property_map t (mapFindD db.m_type_property_map t [] ++ [p]),
        m_class_property_map :=
          update_class_list
            { db with m_type_property_map :=
                mapSet db.m_type_property_map t (mapFindD db.m_type_property_map t [] ++ [p]) }
            (db.m_type_id_counter + 1) t
            (mapSet db.m_type_property_map t (mapFindD db.m_type_property_map t [] ++ [p]))
            db.m_class_property_map } := by
  unfold register_property
  rw [hv, hc, hfresh]
  rfl

/-- Registering a fresh-named property on the derived type `3` of the
two-base scenario appends it to the declared list of `3` and to the tail
of the flattened class list of `3`. -/
theorem TwoBaseInv_step3 {l1 l2 l3 : List Property} {db : TypeDatabase}
    (hinv : TwoBaseInv l1 l2 l3 db) (p : Property)
    (hfresh : l3.find? (fun q => q.m_name == p.m_name) = none) :
    TwoBaseInv l1 l2 (l3 ++ [p]) (register_property db 3 p) := by
  have hv : is_valid 3 = true := rfl
  have hc : is_class db 3 = true := by
    unfold is_class
    rw [hinv.cls]
    rfl
  have hfr : get_type_property db 3 p.m_name = none := by
    unfold get_type_property get_class_item_prop
    rw [hinv.tmap3]
    exact hfresh
  rw [register_property_class_eq db 3 p hv hc hfr, hinv.tmap3]
  set M := mapSet db.m_type_property_map 3 (l3 ++ [p])
  set D : TypeDatabase := { db with m_type_property_map := M }
  have hM1 : mapFindD M 1 [] = l1 := by
    rw [show M = mapSet db.m_type_property_map 3 (l3 ++ [p]) from rfl]
    rw [mapFindD_mapSet_ne _ 3 1 _ _ (by decide)]
    exact hinv.tmap1
  have hM2 : mapFindD M 2 [] = l2 := by
    rw [show M = mapSet db.m_type_property_map 3 (l3 ++ [p]) from rfl]
    rw [mapFindD_mapSet_ne _ 3 2 _ _ (by decide)]
    exact hinv.tmap2
  have hM3 : mapFindD M 3 [] = l3 ++ [p] := mapFindD_mapSet_self _ 3 _ _
  have hB3 : get_base_classes D 3 = [1, 2] := hinv.bases3
  have hD3 : get_derived_classes D 3 = [] := hinv.derived3
  refine ⟨hinv.counter, hinv.cls, hinv.bases1, hinv.bases2, hinv.bases3, hinv.derived1,
    hinv.derived2, hinv.derived3, hM1, hM2, hM3, ?_⟩
  show mapFindD
      (update_class_list D (db.m_type_id_counter + 1) 3 M db.m_class_property_map) 3 []
    = l1 ++ l2 ++ (l3 ++ [p])
  rw [update_class_list_succ, hD3, List.foldl_nil, hB3, mapFindD_mapSet_self]
  simp only [List.flatMap_cons, List.flatMap_nil]
  rw [hM1, hM2, hM3]
  simp [List.append_assoc]

/-- Registering a fresh-named property on base type `1` appends it to
the declared list of `1`, and the flattened list of the derived type `3`
is recomputed to show it in base-first order. -/
theorem TwoBaseInv_step1 {l1 l2 l3 : List Property} {db : TypeDatabase}
    (hinv : TwoBaseInv l1 l2 l3 db) (p : Property)
    (hfresh : l1.find? (fun q => q.m_name == p.m_name) = none) :
    TwoBaseInv (l1 ++ [p]) l2 l3 (register_property db 1 p) := by
  have hv : is_valid 1 = true := rfl
  have hc : is_class db 1 = true := by
    unfold is_class
    rw [hinv.cls]
    rfl
  have hfr : get_type_property db 1 p.m_name = none := by
    unfold get_type_property get_class_item_prop
    rw [hinv.tmap1]
    exact hfresh
  rw [register_property_class_eq db 1 p hv hc hfr, hinv.tmap1]
  set M := mapSet db.m_type_property_map 1 (l1 ++ [p])
  set D : TypeDatabase := { db with m_type_property_map := M }
  have hM1 : mapFindD M 1 [] = l1 ++ [p] := mapFindD_mapSet_self _ 1 _ _
  have hM2 : mapFindD M 2 [] = l2 := by
    rw [show M = mapSet db.m_type_property_map 1 (l1 ++ [p]) from rfl]
    rw [mapFindD_mapSet_ne _ 1 2 _ _ (by decide)]
    exact hinv.tmap2
  have hM3 : mapFindD M 3 [] = l3 := by
    rw [show M = mapSet db.m_type_property_map 1 (l1 ++ [p]) from rfl]
    rw [mapFindD_mapSet_ne _ 1 3 _ _ (by decide)]
    exact hinv.tmap3
  have hB3 : get_base_classes D 3 = [1, 2] := hinv.bases3
  have hD1 : get_derived_classes D 1 = [3] := hinv.derived1
  have hD3 : get_derived_classes D 3 = [] := hinv.derived3
  refine ⟨hinv.counter, hinv.cls, hinv.bases1, hinv.bases2, hinv.bases3, hinv.derived1,
    hinv.derived2, hinv.derived3, hM1, hM2, hM3, ?_⟩
  show mapFindD
      (update_class_list D (db.m_type_id_counter + 1) 1 M db.m_class_property_map) 3 []
    = l1 ++ [p] ++ l2 ++ l3
  rw [update_class_list_succ, hD1]
  simp only [List.foldl_cons, List.foldl_nil]
  rw [hinv.counter, update_class_list_succ, hD3, List.foldl_nil, hB3, mapFindD_mapSet_self]
  simp only [List.flatMap_cons, List.flatMap_nil]
  rw [hM1, hM2, hM3]
  simp [List.append_assoc]

/-- Registering a fresh-named property on base type `2`, symmetric to
`TwoBaseInv_step1`. -/
theorem TwoBaseInv_step2 {l1 l2 l3 : List Property} {db : TypeDatabase}
    (hinv : TwoBaseInv l1 l2 l3 db) (p : Property)
    (hfresh : l2.find? (fun q => q.m_name == p.m_name) = none) :
    TwoBaseInv l1 (l2 ++ [p]) l3 (register_property db 2 p) := by
  have hv : is_valid 2 = true := rfl
  have hc : is_class db 2 = true := by
    unfold is_class
    rw [hinv.cls]
    rfl
  have hfr : get_type_property db 2 p.m_name = none := by
    unfold get_type_property get_class_item_prop
    rw [hinv.tmap2]
    exact hfresh
  rw [register_property_class_eq db 2 p hv hc hfr, hinv.tmap2]
  set M := mapSet db.m_type_property_map 2 (l2 ++ [p])
  set D : TypeDatabase := { db with m_type_property_map := M }
  have hM1 : mapFindD M 1 [] = l1 := by
    rw [show M = mapSet db.m_type_property_map 2 (l2 ++ [p]) from rfl]
    rw [mapFindD_mapSet_ne _ 2 1 _ _ (by decide)]
    exact hinv.tmap1
  have hM2 : mapFindD M 2 [] = l2 ++ [p] := mapFindD_mapSet_self _ 2 _ _
  have hM3 : mapFindD M 3 [] = l3 := by
    rw [show M = mapSet db.m_type_property_map 2 (l2 ++ [p]) from rfl]
    rw [mapFindD_mapSet_ne _ 2 3 _ _ (by decide)]
    exact hinv.tmap3
  have hB3 : get_base_classes D 3 = [1, 2] := hinv.bases3
  have hD2 : get_derived_classes D 2 = [3] := hinv.derived2
  have hD3 : get_derived_classes D 3 = [] := hinv.derived3
  refine ⟨hinv.counter, hinv.cls, hinv.bases1, hinv.bases2, hinv.bases3, hinv.derived1,
    hinv.derived2, hinv.derived3, hM1, hM2, hM3, ?_⟩
  show mapFindD
      (update_class_list D (db.m_type_id_counter + 1) 2 M db.m_class_property_map) 3 []
    = l1 ++ (l2 ++ [p]) ++ l3
  rw [update_class_list_succ, hD2]
  simp only [List.foldl_cons, List.foldl_nil]
  rw [hinv.counter, update_class_list_succ, hD3, List.foldl_nil, hB3, mapFindD_mapSet_self]
  simp only [List.flatMap_cons, List.flatMap_nil]
  rw [hM1, hM2, hM3]
  simp [List.append_assoc]

/-- Fold `TwoBaseInv_step3` over a whole property list registered on the
derived type `3`. -/
theorem TwoBaseInv_fold3 {l1 l2 : List Property} (ps : List Property) :
    ∀ (l3 : List Property) (db : TypeDatabase), TwoBaseInv l1 l2 l3 db →
      (∀ p ∈ ps, ∀ q ∈ l3, q.m_name ≠ p.m_name) →
      (ps.map (fun p => p.m_name)).Nodup →
      TwoBaseInv l1 l2 (l3 ++ ps) (register_properties db 3 ps) := by
  induction ps with
  | nil =>
    intro l3 db hinv _ _
    simpa [register_properties] using hinv
  | cons p ps ih =>
    intro l3 db hinv hsep hnd
    have hnd0 : p.m_name ∉ ps.map (fun r => r.m_name) ∧
        (ps.map (fun r => r.m_name)).Nodup := by
      rw [List.map_cons, List.nodup_cons] at hnd
      exact hnd
    have hfind : l3.find? (fun q => q.m_name == p.m_name) = none := by
      rw [List.find?_eq_none]
      intro q hq
      simpa using hsep p (List.mem_cons_self p ps) q hq
    have hstep := TwoBaseInv_step3 hinv p hfind
    have hsep2 : ∀ r ∈ ps, ∀ q ∈ l3 ++ [p], q.m_name ≠ r.m_name := by
      intro r hr q hq
      rcases List.mem_append.mp hq with hq | hq
      · exact hsep r (List.mem_cons_of_mem p hr) q hq
      · rcases List.mem_singleton.mp hq with rfl
        intro hEq
        exact hnd0.1 (List.mem_map.mpr ⟨r, hr, hEq.symm⟩)
    have hres := ih (l3 ++ [p]) (register_property db 3 p) hstep hsep2 hnd0.2
    have hfold : register_properties db 3 (p :: ps) =
        register_properties (register_property db 3 p) 3 ps := rfl
    rw [hfold]
    simpa [List.append_assoc] using hres

/-- Fold `TwoBaseInv_step1` over a whole property list registered on the
base type `1`. -/
theorem TwoBaseInv_fold1 {l2 l3 : List Property} (ps : List Property) :
    ∀ (l1 : List Property) (db : TypeDatabase), TwoBaseInv l1 l2 l3 db →
      (∀ p ∈ ps, ∀ q ∈ l1, q.m_name ≠ p.m_name) →
      (ps.map (fun p => p.m_name)).Nodup →
      TwoBaseInv (l1 ++ ps) l2 l3 (register_properties db 1 ps) := by
  induction ps with
  | nil =>
    intro l1 db hinv _ _
    simpa [register_properties] using hinv
  | cons p ps ih =>
    intro l1 db hinv hsep hnd
    have hnd0 : p.m_name ∉ ps.map (fun r => r.m_name) ∧
        (ps.map (fun r => r.m_name)).Nodup := by
      rw [List.map_cons, List.nodup_cons] at hnd
      exact hnd
    have hfind : l1.find? (fun q => q.m_name == p.m_name) = none := by
      rw [List.find?_eq_none]
      intro q hq
      simpa using hsep p (List.mem_cons_self p ps) q hq
    have hstep := TwoBaseInv_step1 hinv p hfind
    have hsep2 : ∀ r ∈ ps, ∀ q ∈ l1 ++ [p], q.m_name ≠ r.m_name := by
      intro r hr q hq
      rcases List.mem_append.mp hq with hq | hq
      · exact hsep r (List.mem_cons_of_mem p hr) q hq
      · rcases List.mem_singleton.mp hq with rfl
        intro hEq
        exact hnd0.1 (List.mem_map.mpr ⟨r, hr, hEq.symm⟩)
    have hres := ih (l1 ++ [p]) (register_property db 1 p) hstep hsep2 hnd0.2
    have hfold : register_properties db 1 (p :: ps) =
        register_properties (register_property db 1 p) 1 ps := rfl
    rw [hfold]
    simpa [List.append_assoc] using hres

/-- Fold `TwoBaseInv_step2` over a whole property list registered on the
base type `2`. -/
theorem TwoBaseInv_fold2 {l1 l3 : List Property} (ps : List Property) :
    ∀ (l2 : List Property) (db : TypeDatabase), TwoBaseInv l1 l2 l3 db →
      (∀ p ∈ ps, ∀ q ∈ l2, q.m_name ≠ p.m_name) →
      (ps.map (fun p => p.m_name)).Nodup →
      TwoBaseInv l1 (l2 ++ ps) l3 (register_properties db 2 ps) := by
  induction ps with
  | nil =>
    intro l2 db hinv _ _
    simpa [register_properties] using hinv
  | cons p ps ih =>
    intro l2 db hinv hsep hnd
    have hnd0 : p.m_name ∉ ps.map (fun r => r.m_name) ∧
        (ps.map (fun r => r.m_name)).Nodup := by
      rw [List.map_cons, List.nodup_cons] at hnd
      exact hnd
    have hfind : l2.find? (fun q => q.m_name == p.m_name) = none := by
      rw [List.find?_eq_none]
      intro q hq
      simpa using hsep p (List.mem_cons_self p ps) q hq
    have hstep := TwoBaseInv_step2 hinv p hfind
    have hsep2 : ∀ r ∈ ps, ∀ q ∈ l2 ++ [p], q.m_name ≠ r.m_name := by
      intro r hr q hq
      rcases List.mem_append.mp hq with hq | hq
      · exact hsep r (List.mem_cons_of_mem p hr) q hq
      · rcases List.mem_singleton.mp hq with rfl
        intro hEq
        exact hnd0.1 (List.mem_map.mpr ⟨r, hr, hEq.symm⟩)
    have hres := ih (l2 ++ [p]) (register_property db 2 p) hstep hsep2 hnd0.2
    have hfold : register_properties db 2 (p :: ps) =
        register_properties (register_property db 2 p) 2 ps := rfl
    rw [hfold]
    simpa [List.append_assoc] using hres

/-- Claim C2: in the two-base scenario (class `nB1` registered first,
then `nB2`, then `nT` with base classes `[B1, B2]`), after registering
the property lists `ps1` on `B1`, `ps2` on `B2` and `ps3` on `T`, the
flattened class-property list of `T` is exactly `ps1 ++ ps2 ++ ps3`:
B1's declared properties first, then B2's, then T's own, in
registration order. The hypotheses are the scenario's
distinct class names and per-type distinct property names (a duplicate
name on one type is rejected by `register_property`). -/
theorem C2_flattened_class_list_order (hash : String → Nat) (nB1 nB2 nT : String)
    (f1 f2 : Nat) (ps1 ps2 ps3 : List Property)
    (h21 : nB2 ≠ nB1) (h31 : nT ≠ nB1) (h32 : nT ≠ nB2)
    (hnd1 : (ps1.map (fun p => p.m_name)).Nodup)
    (hnd2 : (ps2.map (fun p => p.m_name)).Nodup)
    (hnd3 : (ps3.map (fun p => p.m_name)).Nodup) :
    get_class_properties
      (register_properties
        (register_properties
          (register_properties (twoBaseScenario hash nB1 nB2 nT f1 f2) 1 ps1) 2 ps2)
        3 ps3) 3
      = ps1 ++ ps2 ++ ps3 := by
  have h0 := twoBaseScenario_inv hash nB1 nB2 nT f1 f2 h21 h31 h32
  have h1 := TwoBaseInv_fold1 ps1 [] _ h0 (by simp) hnd1
  rw [List.nil_append] at h1
  have h2 := TwoBaseInv_fold2 ps2 [] _ h1 (by simp) hnd2
  rw [List.nil_append] at h2
  have h3 := TwoBaseInv_fold3 ps3 [] _ h2 (by simp) hnd3
  rw [List.nil_append] at h3
  exact h3.cmap3

/-- Witness for C2 at a concrete instantiation: one property on each of
the three types, length-hash. -/
theorem C2_flattened_class_list_order_witness :
    get_class_properties
      (register_properties
        (register_properties
          (register_properties
            (twoBaseScenario (fun s => s.length) "B1" "B2" "T" 0 0) 1 [⟨"a", 10⟩])
          2 [⟨"b", 20⟩])
        3 [⟨"c", 30⟩]) 3
      = [⟨"a", 10⟩] ++ [⟨"b", 20⟩] ++ [⟨"c", 30⟩] :=
  C2_flattened_class_list_order (fun s => s.length) "B1" "B2" "T" 0 0
    [⟨"a", 10⟩] [⟨"b", 20⟩] [⟨"c", 30⟩]
    (by decide) (by decide) (by decide) (by decide) (by decide) (by decide)

/-- Claim C3: in the two-base scenario, after the derived type `T` is
registered (and already carries its own declared properties `ps3`),
registering a NEW property `p` on the base `B1` makes it visible in
`T`'s flattened class-property list: `get_class_property(T, p.name)`
finds it and `get_class_properties(T)` contains it — the flattened
lists are recomputed through the derived-class graph on every property
registration, not snapshotted at `T`'s registration. -/
theorem C3_base_property_propagates_live (hash : String → Nat) (nB1 nB2 nT : String)
    (f1 f2 : Nat) (ps3 : List Property) (p : Property)
    (h21 : nB2 ≠ nB1) (h31 : nT ≠ nB1) (h32 : nT ≠ nB2)
    (hnd3 : (ps3.map (fun q => q.m_name)).Nodup) :
    get_class_property
      (register_property
        (register_properties (twoBaseScenario hash nB1 nB2 nT f1 f2) 3 ps3) 1 p)
      3 p.m_name = some p ∧
    p ∈ get_class_properties
      (register_property
        (register_properties (twoBaseScenario hash nB1 nB2 nT f1 f2) 3 ps3) 1 p) 3 := by
  have h0 := twoBaseScenario_inv hash nB1 nB2 nT f1 f2 h21 h31 h32
  have h3 := TwoBaseInv_fold3 ps3 [] _ h0 (by simp) hnd3
  rw [List.nil_append] at h3
  have h1 := TwoBaseInv_step1 h3 p rfl
  rw [List.nil_append] at h1
  have hc := h1.cmap3
  constructor
  · unfold get_class_property get_class_item_prop
    rw [hc]
    simp only [List.nil_append, List.singleton_append]
    exact List.find?_cons_of_pos _ (by simp)
  · unfold get_class_properties
    rw [hc]
    simp

/-- Witness for C3 at a concrete instantiation. -/
theorem C3_base_property_propagates_live_witness :
    get_class_property
      (register_property
        (register_properties
          (twoBaseScenario (fun s => s.length) "B1" "B2" "T" 0 0) 3 [⟨"c", 30⟩])
        1 ⟨"x", 99⟩)
      3 "x" = some ⟨"x", 99⟩ ∧
    (⟨"x", 99⟩ : Property) ∈ get_class_properties
      (register_property
        (register_properties
          (twoBaseScenario (fun s => s.length) "B1" "B2" "T" 0 0) 3 [⟨"c", 30⟩])
        1 ⟨"x", 99⟩) 3 :=
  C3_base_property_propagates_live (fun s => s.length) "B1" "B2" "T" 0 0
    [⟨"c", 30⟩] ⟨"x", 99⟩ (by decide) (by decide) (by decide) (by decide)

/-! ## The lock-step table invariant (C10) -/

/-- An element read inside the bounds of the tail of a list is a member
of the tail. -/
theorem getD_mem_drop_one {l : List α} {i : Nat} (h1 : 1 ≤ i) (h2 : i < l.length)
    (d : α) : l.getD i d ∈ l.drop 1 := by
  rcases i with _ | k
  · omega
  rcases l with _ | ⟨x, t⟩
  · simp at h2
  show (x :: t).getD (k + 1) d ∈ t
  rw [List.getD_cons_succ]
  have hk : k < t.length := by
    simp at h2
    omega
  rw [List.getD_eq_getElem t d hk]
  exact List.getElem_mem hk

/-- A successful name lookup names a stored (non-sentinel) name: the
index entry found points into the tail of the name table. -/
theorem mem_of_lookup_eq_some {hash : String → Nat} {db : TypeDatabase} {name : String}
    {i : Nat} (hinv : RegInv hash db) (hlk : lookup_orig_name hash db name = some i) :
    name ∈ db.m_orig_names.drop 1 := by
  simp only [lookup_orig_name] at hlk
  rcases Option.map_eq_some'.mp hlk with ⟨e, he, -⟩
  have hpred := List.find?_some he
  have hmem : e ∈ db.m_orig_name_to_id := by
    have h1 := List.mem_of_find?_eq_some he
    have h2 := List.Sublist.mem h1 (List.takeWhile_sublist _)
    exact List.Sublist.mem h2 (List.dropWhile_sublist _)
  have hb := hinv.bounds e hmem
  have hname : db.m_orig_names.getD e.m_id "" = name := by simpa using hpred
  rw [← hname]
  exact getD_mem_drop_one hb.2 hb.1 ""

/-- A name stored in the tail of the name table is found by the lookup:
completeness of the index plus the hash invariant produce a matching
run entry. -/
theorem lookup_isSome_of_mem {hash : String → Nat} {db : TypeDatabase} {name : String}
    (hinv : RegInv hash db) (hm : name ∈ db.m_orig_names.drop 1) :
    (lookup_orig_name hash db name).isSome := by
  obtain ⟨j, hj, hje⟩ := List.getElem_of_mem hm
  have hlen : 1 + j < db.m_orig_names.length := by
    rw [List.length_drop] at hj
    omega
  have hgd : db.m_orig_names.getD (1 + j) "" = name := by
    rw [List.getD_eq_getElem db.m_orig_names "" hlen, ← List.getElem_drop, hje]
  obtain ⟨e, hemem, heid⟩ := hinv.complete (1 + j) (by omega) hlen
  refine lookup_orig_name_isSome hinv.sorted ⟨e, hemem, ?_, ?_⟩
  · rw [hinv.hashes e hemem, heid, hgd]
  · rw [heid, hgd]

/-- Dropping the sentinel head commutes with appending a new name. -/
theorem drop_one_append_singleton {l : List α} (x : α) (h : l ≠ []) :
    (l ++ [x]).drop 1 = l.drop 1 ++ [x] := by
  cases l with
  | nil => exact absurd rfl h
  | cons a t => rfl

/-- A duplicate registration leaves the database untouched
(lines 1027-1030). -/
theorem register_type_dup_snd {hash : String → Nat} {db : TypeDatabase} {a : RegTypeArgs}
    {i : Nat} (h : lookup_orig_name hash db a.name = some i) :
    (register_type hash db a).2 = db := by
  rw [register_type_found h]

/-- A fresh registration appends exactly one row to every lock-step
table (lines 1036-1057). -/
theorem register_type_fresh_lockstep {hash : String → Nat} {db : TypeDatabase}
    {a : RegTypeArgs} (h : lookup_orig_name hash db a.name = none) :
    lockstep_tables (register_type hash db a).2 =
      (lockstep_tables db).map (fun n => n + 1) := by
  unfold register_type
  rw [register_name_fresh h]
  simp [lockstep_tables, register_base_class_info, List.length_append]

/-- The fresh database satisfies the allocator invariant. -/
theorem RegInv_initial (hash : String → Nat) : RegInv hash initial_db := by
  refine ⟨?_, ?_, ?_, ?_, ?_, ?_⟩
  · rw [initial_orig_name_to_id]
    exact List.Pairwise.nil
  · intro e he
    rw [initial_orig_name_to_id] at he
    simp at he
  · intro e he
    rw [initial_orig_name_to_id] at he
    simp at he
  · rfl
  · intro i h1 h2
    rw [initial_orig_names] at h2
    simp at h2
    omega
  · intro n hn
    have : lockstep_tables initial_db = List.replicate 16 1 := rfl
    rw [this] at hn
    rw [List.eq_of_mem_replicate hn]
    rfl

/-- `register_type` preserves the allocator invariant. -/
theorem RegInv_register_type (hash : String → Nat) (db : TypeDatabase) (a : RegTypeArgs)
    (hinv : RegInv hash db) : RegInv hash (register_type hash db a).2 := by
  cases hl : lookup_orig_name hash db a.name with
  | some i =>
    rw [register_type_dup_snd hl]
    exact hinv
  | none =>
    obtain ⟨-, hi, hn, hc⟩ := register_type_fresh_fields hl
    refine ⟨?_, ?_, ?_, ?_, ?_, ?_⟩
    · rw [hi]
      exact sorted_stableSortK _
    · intro e he
      rw [hi, mem_stableSortK] at he
      rw [hn]
      rcases List.mem_append.mp he with he | he
      · have hb := hinv.bounds e he
        rw [List.getD_append _ _ _ _ hb.1]
        exact hinv.hashes e he
      · rcases List.mem_singleton.mp he with rfl
        show hash a.name = hash ((db.m_orig_names ++ [a.name]).getD (db.m_type_id_counter + 1) "")
        rw [← hinv.counter, List.getD_eq_getElem?_getD, List.getElem?_concat_length]
        rfl
    · intro e he
      rw [hi, mem_stableSortK] at he
      rw [hn, List.length_append]
      rcases List.mem_append.mp he with he | he
      · have hb := hinv.bounds e he
        exact ⟨by simp; omega, hb.2⟩
      · rcases List.mem_singleton.mp he with rfl
        have hcnt := hinv.counter
        constructor
        · show db.m_type_id_counter + 1 < db.m_orig_names.length + [a.name].length
          simp
          omega
        · show 1 ≤ db.m_type_id_counter + 1
          omega
    · rw [hn, hc, List.length_append, hinv.counter]
      rfl
    · intro j h1 h2
      rw [hn, List.length_append] at h2
      rw [hi]
      by_cases hj : j < db.m_orig_names.length
      · obtain ⟨e, he, heid⟩ := hinv.complete j h1 hj
        exact ⟨e, mem_stableSortK.mpr (List.mem_append_left _ he), heid⟩
      · refine ⟨⟨db.m_type_id_counter + 1, hash a.name⟩,
          mem_stableSortK.mpr (List.mem_append_right _ (List.mem_singleton.mpr rfl)), ?_⟩
        show db.m_type_id_counter + 1 = j
        have hcnt := hinv.counter
        simp at h2
        omega
    · intro n hn2
      rw [register_type_fresh_lockstep hl] at hn2
      rcases List.mem_map.mp hn2 with ⟨m, hm, rfl⟩
      rw [hinv.lock m hm, hn, List.length_append]
      rfl

/-- Every name reachable through `accNames` comes from the accumulator
or the input. -/
theorem mem_accNames {x : String} (ns : List String) :
    ∀ acc, x ∈ accNames acc ns ↔ x ∈ acc ∨ x ∈ ns := by
  induction ns with
  | nil =>
    intro acc
    simp [accNames]
  | cons n ns ih =>
    intro acc
    rw [show accNames acc (n :: ns) =
        accNames (if n ∈ acc then acc else acc ++ [n]) ns from rfl]
    by_cases h : n ∈ acc
    · rw [if_pos h, ih acc]
      constructor
      · rintro (hx | hx)
        · exact Or.inl hx
        · exact Or.inr (List.mem_cons_of_mem n hx)
      · rintro (hx | hx)
        · exact Or.inl hx
        · rcases List.mem_cons.mp hx with rfl | hx
          · exact Or.inl h
          · exact Or.inr hx
    · rw [if_neg h, ih (acc ++ [n])]
      simp only [List.mem_append, List.mem_singleton, List.mem_cons]
      tauto

/-- `accNames` keeps the accumulated name list duplicate-free. -/
theorem nodup_accNames (ns : List String) :
    ∀ acc : List String, acc.Nodup → (accNames acc ns).Nodup := by
  induction ns with
  | nil =>
    intro acc h
    exact h
  | cons n ns ih =>
    intro acc h
    rw [show accNames acc (n :: ns) =
        accNames (if n ∈ acc then acc else acc ++ [n]) ns from rfl]
    by_cases hn : n ∈ acc
    · rw [if_pos hn]
      exact ih acc h
    · rw [if_neg hn]
      refine ih _ (List.nodup_append.mpr ⟨h, List.nodup_singleton n, ?_⟩)
      rw [List.disjoint_singleton]
      exact hn

/-- Running a sequence of registrations preserves the allocator
invariant, and the stored name tail is exactly the first-occurrence
fold of the requested names over the starting tail. -/
theorem registerAll_strong (hash : String → Nat) (regs : List RegTypeArgs) :
    ∀ db : TypeDatabase, RegInv hash db →
      RegInv hash (regs.foldl (fun d a => (register_type hash d a).2) db) ∧
      (regs.foldl (fun d a => (register_type hash d a).2) db).m_orig_names.drop 1
        = accNames (db.m_orig_names.drop 1) (regs.map (fun a => a.name)) := by
  induction regs with
  | nil =>
    intro db h
    exact ⟨h, rfl⟩
  | cons a regs ih =>
    intro db h
    simp only [List.foldl_cons, List.map_cons]
    cases hl : lookup_orig_name hash db a.name with
    | some i =>
      have hmem : a.name ∈ db.m_orig_names.drop 1 := mem_of_lookup_eq_some h hl
      rw [register_type_dup_snd hl]
      obtain ⟨hinv2, hnames2⟩ := ih db h
      refine ⟨hinv2, ?_⟩
      rw [hnames2]
      rw [show accNames (db.m_orig_names.drop 1) (a.name :: regs.map (fun a => a.name)) =
          accNames (if a.name ∈ db.m_orig_names.drop 1 then db.m_orig_names.drop 1
            else db.m_orig_names.drop 1 ++ [a.name]) (regs.map (fun a => a.name)) from rfl]
      rw [if_pos hmem]
    | none =>
      have hnot : a.name ∉ db.m_orig_names.drop 1 := by
        intro hmem
        have hs := lookup_isSome_of_mem h hmem
        rw [hl] at hs
        simp at hs
      obtain ⟨hinv2, hnames2⟩ :=
        ih ((register_type hash db a).2) (RegInv_register_type hash db a h)
      refine ⟨hinv2, ?_⟩
      rw [hnames2]
      obtain ⟨-, -, hn, -⟩ := register_type_fresh_fields hl
      have hne : db.m_orig_names ≠ [] := by
        refine List.ne_nil_of_length_pos ?_
        rw [h.counter]
        omega
      rw [hn, drop_one_append_singleton a.name hne]
      rw [show accNames (db.m_orig_names.drop 1) (a.name :: regs.map (fun a => a.name)) =
          accNames (if a.name ∈ db.m_orig_names.drop 1 then db.m_orig_names.drop 1
            else db.m_orig_names.drop 1 ++ [a.name]) (regs.map (fun a => a.name)) from rfl]
      rw [if_neg hnot]

/-- Claim C10: after any sequence of `register_type` calls against the
fresh registry, every attribute table indexed directly by TypeId —
original names, custom names, raw-type ids, wrapped-type ids,
array-raw-type ids, variant-create functions, sizes, the eight
classification-flag lists, and pointer-indirection depths — has the
same length: the number of distinct requested names plus one for the
reserved invalid id 0. -/
theorem C10_lockstep_tables (hash : String → Nat) (regs : List RegTypeArgs) :
    lockstep_tables (registerAll hash regs) =
      List.replicate 16 ((regs.map (fun a => a.name)).dedup.length + 1) := by
  obtain ⟨hinv, hnames⟩ := registerAll_strong hash regs initial_db (RegInv_initial hash)
  rw [show registerAll hash regs
      = regs.foldl (fun d a => (register_type hash d a).2) initial_db from rfl]
  rw [List.eq_replicate_iff]
  refine ⟨rfl, ?_⟩
  intro n hn
  have hlen := hinv.lock n hn
  have hdrop : (regs.foldl (fun d a => (register_type hash d a).2)
        initial_db).m_orig_names.length
      = ((regs.foldl (fun d a => (register_type hash d a).2)
        initial_db).m_orig_names.drop 1).length + 1 := by
    rw [List.length_drop]
    have := hinv.counter
    omega
  rw [hlen, hdrop, hnames]
  rw [show initial_db.m_orig_names.drop 1 = ([] : List String) from rfl]
  congr 1
  have h1 : (accNames [] (regs.map (fun a => a.name))).length
      = (accNames [] (regs.map (fun a => a.name))).toFinset.card :=
    (List.toFinset_card_of_nodup (nodup_accNames _ [] List.nodup_nil)).symm
  have h2 : ((regs.map (fun a => a.name)).dedup).length
      = ((regs.map (fun a => a.name)).dedup).toFinset.card :=
    (List.toFinset_card_of_nodup (List.nodup_dedup _)).symm
  rw [h1, h2]
  congr 1
  apply Finset.ext
  intro x
  simp only [List.mem_toFinset, List.mem_dedup]
  rw [mem_accNames]
  simp

end rttr
